import Mathlib

/-!
Verification of the CineMatch hybrid recommendation core.

This file gives a shallow embedding, in Lean 4, of the recommendation
algorithms of `backend/app/services/ml/` (content-based, collaborative,
mood and group recommenders, plus the hybrid aggregator's weight
schedule), and proves or refutes the specified properties about them.

Modelling conventions:
* ratings, scores and similarity values are exact rationals (`ℚ`); the
  Python source computes with floats, but every property at issue is
  algebraic, not a rounding property;
* the similarity matrices themselves (claim C8) are modelled over `ℝ`,
  since cosine similarity divides by Euclidean norms;
* database queries become pure functions over explicit lists; Python
  dicts become association lists updated in insertion order (`bump` /
  `foldBump` below), which reproduces dict iteration order;
* Python's stable `sorted(..., reverse=True)` is modelled by
  `List.insertionSort` with the relation "my key is at least yours":
  insertion sort is stable, and any two stable sorts for the same total
  preorder agree, so this is extensionally Python's sort;
* `TextBlob` sentiment and `math.log` are external collaborators: a
  review carries its polarity as data, and the logarithm is an explicit
  function parameter, so every theorem quantifies over them;
* UUIDs are modelled as `Nat`; a raw user-id string that may fail UUID
  parsing is an `Option Nat` (`none` = unparsable string).
-/

set_option maxRecDepth 100000

set_option allowUnsafeReducibility true

attribute [local semireducible] Rat.inv Rat.mul Rat.add Rat.sub Rat.ofScientific

/-- One row of the ratings store: `(user_id, movie_id, rating)`. -/
structure Rating where
  userId : Nat
  movieId : Nat
  rating : ℚ
deriving Repr, DecidableEq

/-- Movie catalog row, with exactly the fields the recommenders read.
Optional fields are `Option` because the Python columns are nullable and
the code guards them with truthiness checks. -/
structure Movie where
  id : Nat
  genres : List String
  overview : Option String
  tagline : Option String
  voteAverage : Option ℚ
  popularity : Option ℚ
  voteCount : Nat
  isActive : Bool
deriving Repr, DecidableEq, Inhabited

/-- An approved-or-not review; `polarity` is the TextBlob sentiment of
`content`, carried as data because TextBlob is an external collaborator. -/
structure Review where
  movieId : Nat
  content : Option String
  polarity : ℚ
  approved : Bool
deriving Repr, DecidableEq

/-- Python `str.lower()` (ASCII range, like Lean's `Char.toLower`). -/
def pyLower (s : String) : String :=
  String.mk (s.data.map Char.toLower)

/-- The distinct elements of a list, keeping first occurrences in order
(the key order of a Python dict or the iteration order of a set built by
successive `add`s). -/
def firstUniques {α : Type} [DecidableEq α] (l : List α) : List α :=
  l.foldl (fun acc a => if a ∈ acc then acc else acc ++ [a]) []

/-- Whether the first character list begins the second (helper for the
substring test below). -/
def charsStartWith : List Char → List Char → Bool
  | [], _ => true
  | _ :: _, [] => false
  | a :: as, b :: bs => a = b && charsStartWith as bs

/-- Python's `needle in haystack` on strings, as contiguous-subsequence
search over character lists. -/
def charsOccur (n : List Char) : List Char → Bool
  | [] => charsStartWith n []
  | c :: t => charsStartWith n (c :: t) || charsOccur n t

/-- `np.min` over a nonempty list given as head and tail. -/
def listMin (h : ℚ) (t : List ℚ) : ℚ := t.foldl min h

/-- `max(0.0, min(1.0, x))`. -/
def clamp01 (q : ℚ) : ℚ := max 0 (min 1 q)

/-- One step of the Python dict pattern `d.setdefault(k, init); d[k] = u(d[k])`:
update the entry at key `k` if present, else append `(k, u init)`. -/
def bump {κ β : Type} [DecidableEq κ] (acc : List (κ × β)) (k : κ) (u : β → β)
    (init : β) : List (κ × β) :=
  if acc.any (fun e => e.1 = k) then
    acc.map (fun e => if e.1 = k then (e.1, u e.2) else e)
  else acc ++ [(k, u init)]

/-- Accumulate a stream of keyed contributions into an association list,
in insertion order — the Python `for ...: d[k] += ...` idiom. -/
def foldBump {κ α β : Type} [DecidableEq κ] (u : α → β → β) (init : β)
    (ps : List (κ × α)) : List (κ × β) :=
  ps.foldl (fun acc p => bump acc p.1 (u p.2) init) []

/-- Lookup by key in an association list (first match). -/
def lookupKey {κ β : Type} [DecidableEq κ] (acc : List (κ × β)) (k : κ) :
    Option β :=
  (acc.find? (fun e => e.1 = k)).map (·.2)

/-- Descending order by a rational key: `a` may precede `b` when `b`'s key
is at most `a`'s. With `List.insertionSort` this is Python's stable
`sorted(key=key, reverse=True)`. -/
def descBy {α : Type} (key : α → ℚ) (a b : α) : Prop := key b ≤ key a

instance {α : Type} (key : α → ℚ) : DecidableRel (descBy key) :=
  fun a b => inferInstanceAs (Decidable (key b ≤ key a))

instance {α : Type} (key : α → ℚ) : IsTotal α (descBy key) :=
  ⟨fun a b => le_total (key b) (key a)⟩

instance {α : Type} (key : α → ℚ) : IsTrans α (descBy key) :=
  ⟨fun _ _ _ h h' => le_trans h' h⟩

/-- Descending lexicographic order on two rational keys, for Python's
`sorted(key=lambda x: (k1, k2), reverse=True)`. -/
def descByPair {α : Type} (key1 key2 : α → ℚ) (a b : α) : Prop :=
  key1 b < key1 a ∨ (key1 b = key1 a ∧ key2 b ≤ key2 a)

instance {α : Type} (key1 key2 : α → ℚ) : DecidableRel (descByPair key1 key2) :=
  fun a b =>
    inferInstanceAs (Decidable (key1 b < key1 a ∨ (key1 b = key1 a ∧ key2 b ≤ key2 a)))

instance {α : Type} (key1 key2 : α → ℚ) : IsTotal α (descByPair key1 key2) := by
  constructor
  intro a b
  rcases lt_trichotomy (key1 a) (key1 b) with h | h | h
  · exact Or.inr (Or.inl h)
  · rcases le_total (key2 a) (key2 b) with h2 | h2
    · exact Or.inr (Or.inr ⟨h, h2⟩)
    · exact Or.inl (Or.inr ⟨h.symm, h2⟩)
  · exact Or.inl (Or.inl h)

instance {α : Type} (key1 key2 : α → ℚ) : IsTrans α (descByPair key1 key2) := by
  constructor
  rintro a b c (h | ⟨h, h2⟩) (h' | ⟨h', h2'⟩)
  · exact Or.inl (lt_trans h' h)
  · exact Or.inl (lt_of_le_of_lt (le_of_eq h') h)
  · exact Or.inl (lt_of_lt_of_le h' (le_of_eq h))
  · exact Or.inr ⟨h'.trans h, le_trans h2' h2⟩

/-- `hybrid_recommender.get_personal_recommendations`, lines 52-66: the
activity-adaptive weight schedule `(content, collaborative, popularity)`
chosen from the user's total rating count. -/
def hybridWeights (userRatingsCount : Nat) : ℚ × ℚ × ℚ :=
  if userRatingsCount < 5 then (6/10, 1/10, 3/10)
  else if userRatingsCount < 20 then (5/10, 3/10, 2/10)
  else (3/10, 6/10, 1/10)

/-- `db.query(Rating).filter(Rating.user_id == user_id).count()`. -/
def userRatingCount (ratings : List Rating) (u : Nat) : Nat :=
  (ratings.filter (fun r => r.userId = u)).length

/-- `_get_popular_movies(limit)` (the shared popularity fallback of
content-based, collaborative and mood recommenders): active movies with
at least `minVotes` votes, ordered by descending popularity, first
`limit`. A null popularity sorts as 0. -/
def popularMovies (catalog : List Movie) (minVotes limit : Nat) : List Movie :=
  ((catalog.filter (fun m => m.isActive ∧ minVotes ≤ m.voteCount)).insertionSort
    (descBy (fun m => m.popularity.getD 0))).take limit

/-- The content-based model artifact: the fixed ordered list of indexed
movie ids (`movie_indices` maps `movieIds[i] ↦ i`; ids are distinct as
built, one per catalog row), and the similarity matrix by position. -/
structure ContentIndex where
  movieIds : List Nat
  sim : Nat → Nat → ℚ

/-- `list(enumerate(self.similarity_matrix[movie_idx]))` with the movie
itself removed (`score[0] != movie_idx`). -/
def rowEntries (idx : ContentIndex) (i : Nat) : List (Nat × ℚ) :=
  ((List.range idx.movieIds.length).map (fun j => (j, idx.sim i j))).filter
    (fun p => p.1 ≠ i)

/-- The collection loop of `_get_similar_movies_internal`: walk the
similarity-sorted positions, stop once `limit` movies are collected, skip
excluded ids and ids missing from the catalog. -/
def collectSimilar (catalog : List Movie) (ids : List Nat) (excludeIds : List Nat)
    (limit : Nat) : List (Nat × ℚ) → List (Movie × ℚ) → List (Movie × ℚ)
  | [], acc => acc
  | p :: rest, acc =>
    if limit ≤ acc.length then acc
    else
      match ids.get? p.1 with
      | none => collectSimilar catalog ids excludeIds limit rest acc
      | some mid =>
        if mid ∈ excludeIds then collectSimilar catalog ids excludeIds limit rest acc
        else
          match catalog.find? (fun m => m.id = mid) with
          | some m => collectSimilar catalog ids excludeIds limit rest (acc ++ [(m, p.2)])
          | none => collectSimilar catalog ids excludeIds limit rest acc

/-- `content_based._get_similar_movies_internal(movie_id, limit, exclude_ids)`:
up to `limit` `(movie, similarity)` pairs, by descending similarity,
excluding the query movie itself and everything in `excludeIds`. -/
def getSimilarMoviesInternal (idx : ContentIndex) (catalog : List Movie)
    (movieId limit : Nat) (excludeIds : List Nat) : List (Movie × ℚ) :=
  match idx.movieIds.findIdx? (fun x => x = movieId) with
  | none => []
  | some i =>
    collectSimilar catalog idx.movieIds excludeIds limit
      ((rowEntries idx i).insertionSort (descBy (fun p => p.2))) []

/-- The user's highly rated movies:
`Rating.user_id == user_id, Rating.rating >= 4.0`. -/
def highRatings (ratings : List Rating) (userId : Nat) : List Rating :=
  ratings.filter (fun r => r.userId = userId ∧ (4 : ℚ) ≤ r.rating)

/-- The stream of keyed contributions produced by the nested loop of
`content_based.get_recommendations`: for each highly rated source movie,
its fetched neighborhood (20 neighbors, rated ids excluded), each
neighbor contributing `similarity * (user_rating / 5.0)` under its
movie id. -/
def contentPairStream (idx : ContentIndex) (catalog : List Movie)
    (userHigh : List Rating) (ratedIds : List Nat) : List (Nat × (Movie × ℚ)) :=
  userHigh.flatMap (fun r =>
    (getSimilarMoviesInternal idx catalog r.movieId 20 ratedIds).map
      (fun p => (p.1.id, (p.1, p.2 * (r.rating / 5)))))

/-- The fresh candidate entry `{'movie': ..., 'score': 0.0, 'count': 0}`
(the movie slot is filled by the first contribution). -/
def candInit : Movie × ℚ × Nat := (default, 0, 0)

/-- One candidate update: `score += similarity * weight; count += 1`,
recording the movie on creation. -/
def candStep (p : Movie × ℚ) (b : Movie × ℚ × Nat) : Movie × ℚ × Nat :=
  (if b.2.2 = 0 then p.1 else b.1, b.2.1 + p.2, b.2.2 + 1)

/-- The `candidate_movies` dict of `content_based.get_recommendations`,
keyed by movie id in insertion order. -/
def buildCandidates (idx : ContentIndex) (catalog : List Movie)
    (userHigh : List Rating) (ratedIds : List Nat) : List (Nat × (Movie × ℚ × Nat)) :=
  foldBump candStep candInit (contentPairStream idx catalog userHigh ratedIds)

/-- The sort key `x['score'] / x['count']` — the average weighted score. -/
def avgScore (v : Movie × ℚ × Nat) : ℚ := v.2.1 / (v.2.2 : ℚ)

/-- `content_based.get_recommendations(user_id, limit, exclude_watched)`.
With no rating ≥ 4.0 it falls back to the popularity ranking; otherwise
candidates accumulated from the neighborhoods of the user's highly rated
movies are ranked by descending average weighted score. -/
def contentGetRecommendations (idx : ContentIndex) (catalog : List Movie)
    (ratings : List Rating) (userId limit : Nat) (excludeWatched : Bool) :
    List Movie :=
  let userHigh := highRatings ratings userId
  if userHigh.isEmpty then popularMovies catalog 100 limit
  else
    let ratedIds := if excludeWatched then userHigh.map (·.movieId) else []
    let cands := (buildCandidates idx catalog userHigh ratedIds).map (·.2)
    ((cands.insertionSort (descBy avgScore)).take limit).map (·.1)

/-- `db.query(Rating).filter(Rating.movie_id == m).count()` over the whole
ratings store (`movie_counts` in `_compute_user_item_matrix`). -/
def movieRatingCount (ratings : List Rating) (m : Nat) : Nat :=
  (ratings.filter (fun r => r.movieId = m)).length

/-- `df_filtered`: the ratings of users with at least 5 ratings on movies
with at least 5 ratings. -/
def filteredRatings (ratings : List Rating) : List Rating :=
  ratings.filter (fun r =>
    5 ≤ userRatingCount ratings r.userId ∧ 5 ≤ movieRatingCount ratings r.movieId)

/-- The row index set of the collaborative matrix: distinct user ids of
the filtered ratings, in order of appearance. -/
def collabActiveUsers (ratings : List Rating) : List Nat :=
  firstUniques ((filteredRatings ratings).map (·.userId))

/-- The column index set of the collaborative matrix: distinct movie ids
of the filtered ratings, in order of appearance. -/
def collabActiveMovies (ratings : List Rating) : List Nat :=
  firstUniques ((filteredRatings ratings).map (·.movieId))

/-- One cell of the user×movie matrix: the rating the filtered store
holds for `(u, m)`, else 0. The Python fill loop writes later rows last,
hence the lookup on the reversed list. -/
def collabEntry (fr : List Rating) (u m : Nat) : ℚ :=
  match fr.reverse.find? (fun r => r.userId = u ∧ r.movieId = m) with
  | some r => r.rating
  | none => 0

/-- Whether `_compute_user_item_matrix` actually builds a matrix: it
gives up below 100 raw ratings or below 50 filtered ratings. -/
def collabBuilt (ratings : List Rating) : Bool :=
  100 ≤ ratings.length ∧ 50 ≤ (filteredRatings ratings).length

/-- The accumulation stream of `collaborative.get_recommendations`: for
each of the top 50 similar users, every matrix movie that user rated
≥ 4.0 and the target user has not rated contributes
`similarity * (rating / 5.0)`. -/
def collabPairStream (ratings : List Rating) (userId : Nat)
    (simUsers : List (Nat × ℚ)) : List (Nat × ℚ) :=
  let fr := filteredRatings ratings
  let aM := collabActiveMovies ratings
  let ratedCols := aM.filter (fun m => 0 < collabEntry fr userId m)
  (simUsers.take 50).flatMap (fun su =>
    (aM.filter (fun m => (4 : ℚ) ≤ collabEntry fr su.1 m ∧ m ∉ ratedCols)).map
      (fun m => (m, su.2 * (collabEntry fr su.1 m / 5))))

/-- `collaborative.get_recommendations(user_id, limit)`. The similar-user
search (`_find_similar_users`, real-valued cosine over matrix rows, claim
C8) is abstracted as the parameter `simUsers`; every property proved here
holds for every such list. Fallback to popularity when no matrix was
built or the user is not an active row. -/
def collabGetRecommendations (ratings : List Rating) (catalog : List Movie)
    (userId : Nat) (simUsers : List (Nat × ℚ)) (limit : Nat) : List Movie :=
  if ¬ collabBuilt ratings then popularMovies catalog 100 limit
  else if userId ∉ collabActiveUsers ratings then popularMovies catalog 100 limit
  else
    let recs := foldBump (fun (q b : ℚ) => b + q) 0 (collabPairStream ratings userId simUsers)
    let sorted := recs.insertionSort (descBy (fun p => p.2))
    ((sorted.take limit).map (·.1)).filterMap
      (fun mid => catalog.find? (fun mv => mv.id = mid))

/-- The static `mood_genre_mapping` of `MoodAnalyzer.__init__`. -/
def moodGenreMapping : List (String × List String) :=
  [("happy", ["Comedy", "Family", "Animation", "Musical", "Romance"]),
   ("sad", ["Drama", "Romance"]),
   ("excited", ["Action", "Adventure", "Thriller", "Science Fiction"]),
   ("romantic", ["Romance", "Drama"]),
   ("adventurous", ["Adventure", "Action", "Fantasy", "Science Fiction"]),
   ("relaxed", ["Comedy", "Family", "Documentary"]),
   ("thoughtful", ["Drama", "Documentary", "Mystery", "Science Fiction"]),
   ("scared", ["Horror", "Thriller"]),
   ("nostalgic", ["Drama", "Family"]),
   ("energetic", ["Action", "Adventure", "Comedy"])]

/-- The static `mood_keywords` of `MoodAnalyzer.__init__`. -/
def moodKeywordMapping : List (String × List String) :=
  [("happy", ["joy", "happiness", "cheerful", "uplifting", "positive", "fun", "lighthearted"]),
   ("sad", ["emotional", "touching", "tearjerker", "melancholy", "tragic", "heartbreaking"]),
   ("excited", ["thrilling", "intense", "adrenaline", "fast-paced", "explosive", "action-packed"]),
   ("romantic", ["love story", "romantic", "passion", "relationship", "intimate"]),
   ("adventurous", ["journey", "quest", "exploration", "epic", "adventure"]),
   ("relaxed", ["calm", "peaceful", "gentle", "easy-going", "comfort"]),
   ("thoughtful", ["philosophical", "deep", "complex", "intellectual", "thought-provoking"]),
   ("scared", ["scary", "frightening", "terrifying", "suspenseful", "creepy"]),
   ("nostalgic", ["classic", "vintage", "memories", "past", "childhood"]),
   ("energetic", ["dynamic", "vibrant", "energetic", "lively", "spirited"])]

/-- The keys of `mood_genre_mapping` (`mood.lower() not in self.mood_genre_mapping`
tests membership here). -/
def moodKeys : List String := moodGenreMapping.map (·.1)

/-- The closed mood vocabulary `valid_moods` of the API route
`GET /recommendations/mood/{mood}`. -/
def validMoods : List String :=
  ["happy", "sad", "excited", "romantic", "adventurous",
   "relaxed", "thoughtful", "scared", "nostalgic", "energetic"]

/-- The per-review branch of `_get_review_sentiment_score`, mapping one
review's sentiment polarity to a mood-compatibility contribution. -/
def sentimentContribution (mood : String) (p : ℚ) : ℚ :=
  if mood ∈ (["happy", "excited", "energetic"] : List String) then max 0 p
  else if mood ∈ (["sad", "thoughtful"] : List String) then |p|
  else if mood ∈ (["scared"] : List String) then
    (if p < 0 then max 0 (-p) else 0)
  else |p| * (1/2)

/-- `mood_analyzer._get_review_sentiment_score(movie_id, mood)`: average
the per-review contribution over the (at most 10) sampled approved
reviews that have content; 0 when none contribute. -/
def reviewSentimentScore (reviews : List Review) (movieId : Nat) (mood : String) : ℚ :=
  let sampled := (reviews.filter (fun v => v.movieId = movieId ∧ v.approved)).take 10
  let contributing := sampled.filter (fun v => ¬ v.content.getD "" = "")
  if contributing.length = 0 then 0
  else ((contributing.map (fun v => sentimentContribution mood v.polarity)).sum) /
    (contributing.length : ℚ)

/-- The lowercased `overview` + `tagline` blob used for keyword matching
(each part only when truthy, i.e. present and nonempty). -/
def textContentOf (m : Movie) : String :=
  let t1 := match m.overview with
    | some o => if o = "" then "" else pyLower o
    | none => ""
  match m.tagline with
  | some tg => if tg = "" then t1 else t1 ++ " " ++ pyLower tg
  | none => t1

/-- `sum(1 for keyword in mood_keywords if keyword in text_content)`. -/
def keywordCount (kws : List String) (text : String) : Nat :=
  (kws.filter (fun k => charsOccur k.data text.data)).length

/-- `mood_analyzer._calculate_mood_score(movie, mood)`; `logf` stands for
`math.log` (an external numeric routine, supplied as a parameter). -/
def calculateMoodScore (reviews : List Review) (logf : ℚ → ℚ) (m : Movie)
    (mood : String) : ℚ :=
  let target := (moodGenreMapping.lookup mood).getD []
  let genreScore : ℚ :=
    (((firstUniques m.genres).filter (fun g => g ∈ target)).length : ℚ) * (3/10)
  let text := textContentOf m
  let kwScore : ℚ :=
    if text = "" then 0
    else (keywordCount ((moodKeywordMapping.lookup mood).getD []) text : ℚ) * (2/10)
  let sentScore := reviewSentimentScore reviews m.id mood * (3/10)
  let va := m.voteAverage.getD 0
  let vaScore : ℚ := if va = 0 then 0 else va / 10 * (1/10)
  let pop := m.popularity.getD 0
  let popScore : ℚ := if pop = 0 then 0 else min (logf (pop + 1) / 10) (1/10)
  genreScore + kwScore + sentScore + vaScore + popScore

/-- `mood_analyzer.get_mood_recommendations(user_id, mood, limit)`:
`[]` on an unknown (lowercased) mood; otherwise genre-matching active
movies with ≥ 20 votes, minus the user's rated movies, ranked by
`(mood_score, popularity)` descending. -/
def getMoodRecommendations (catalog : List Movie) (ratings : List Rating)
    (reviews : List Review) (logf : ℚ → ℚ) (userId : Nat) (mood : String)
    (limit : Nat) : List Movie :=
  let key := pyLower mood
  if key ∉ moodKeys then []
  else
    let target := (moodGenreMapping.lookup key).getD []
    let ratedIds := (ratings.filter (fun r => r.userId = userId)).map (·.movieId)
    let movies := catalog.filter (fun m =>
      m.genres.any (fun g => g ∈ target) ∧ m.isActive ∧ 20 ≤ m.voteCount ∧
        m.id ∉ ratedIds)
    if movies.isEmpty then []
    else
      let scored := movies.map (fun m => (m, calculateMoodScore reviews logf m key))
      let sorted := scored.insertionSort
        (descByPair (fun p => p.2) (fun p => p.1.popularity.getD 0))
      (sorted.take limit).map (·.1)

/-- The user-facing failures of the recommendation API. -/
inductive RecFailure where
  | invalidMood
deriving Repr, DecidableEq

/-- The API route `GET /recommendations/mood/{mood}`: a mood whose
lowercasing is outside `valid_moods` is rejected with HTTP 400
(InvalidMood) before any scoring; otherwise the analyzer runs on the
lowercased mood. -/
def moodEndpoint (catalog : List Movie) (ratings : List Rating)
    (reviews : List Review) (logf : ℚ → ℚ) (userId : Nat) (mood : String)
    (limit : Nat) : Except RecFailure (List Movie) :=
  if pyLower mood ∉ validMoods then Except.error RecFailure.invalidMood
  else Except.ok (getMoodRecommendations catalog ratings reviews logf userId (pyLower mood) limit)

/-- Dict access `user_ratings[movie_id]` on a user's `{movie_id: rating}`
map (present by construction wherever the code reads it). -/
def ratingOf (ur : List (Nat × ℚ)) (mid : Nat) : ℚ :=
  ((ur.find? (fun p => p.1 = mid)).map (·.2)).getD 0

/-- The `genre_scores`/`genre_counts` accumulation of
`group_recommender._get_user_genre_preferences`: per genre, the sum and
count of the user's ratings over their rated movies carrying that genre. -/
def genreTotals (catalog : List Movie) (ur : List (Nat × ℚ)) :
    List (String × (ℚ × Nat)) :=
  foldBump (fun (q : ℚ) (b : ℚ × Nat) => (b.1 + q, b.2 + 1)) (0, 0)
    ((catalog.filter (fun m => ur.any (fun p => p.1 = m.id))).flatMap
      (fun m => m.genres.map (fun g => (g, ratingOf ur m.id))))

/-- `group_recommender._get_user_genre_preferences(user_id, user_ratings)`:
the user's average rating per genre, kept only for genres with at least
2 of that user's ratings. -/
def userGenrePrefs (catalog : List Movie) (ur : List (Nat × ℚ)) :
    List (String × ℚ) :=
  if ur.isEmpty then []
  else (genreTotals catalog ur).filterMap
    (fun e => if 2 ≤ e.2.2 then some (e.1, e.2.1 / (e.2.2 : ℚ)) else none)

/-- The `genre_support` dict of `_find_consensus_candidates`: how many
distinct group members have an average rating ≥ 3.5 in each genre. -/
def genreSupport (catalog : List Movie) (ratingsFor : Nat → List (Nat × ℚ))
    (userIds : List Nat) : List (String × Nat) :=
  foldBump (fun (_ : Unit) (n : Nat) => n + 1) 0
    ((firstUniques userIds).flatMap (fun u =>
      ((userGenrePrefs catalog (ratingsFor u)).filter
        (fun p => (7/2 : ℚ) ≤ p.2)).map (fun p => (p.1, ()))))

/-- The "common genres" of a group: support at least
`len(user_ids) // 2 + 1`. -/
def commonGenres (catalog : List Movie) (ratingsFor : Nat → List (Nat × ℚ))
    (userIds : List Nat) : List String :=
  ((genreSupport catalog ratingsFor userIds).filter
    (fun p => userIds.length / 2 + 1 ≤ p.2)).map (·.1)

/-- `group_recommender._find_consensus_candidates`: up to 200 candidate
movies from the common genres (≥ 50 votes), or globally popular movies
(≥ 100 votes) when no genre is common; group-rated movies excluded, most
popular first. -/
def findConsensusCandidates (catalog : List Movie)
    (ratingsFor : Nat → List (Nat × ℚ)) (userIds : List Nat)
    (excludeMovies : List Nat) : List Movie :=
  let common := commonGenres catalog ratingsFor userIds
  if common.isEmpty then
    ((catalog.filter (fun m =>
        m.isActive ∧ 100 ≤ m.voteCount ∧ m.id ∉ excludeMovies)).insertionSort
      (descBy (fun m => m.popularity.getD 0))).take 200
  else
    ((catalog.filter (fun m =>
        m.genres.any (fun g => g ∈ common) ∧ m.isActive ∧ 50 ≤ m.voteCount ∧
          m.id ∉ excludeMovies)).insertionSort
      (descBy (fun m => m.popularity.getD 0))).take 200

/-- `group_recommender._predict_user_satisfaction(movie, user_id, user_ratings)`. -/
def predictUserSatisfaction (catalog : List Movie) (m : Movie)
    (ur : List (Nat × ℚ)) : ℚ :=
  if ur.isEmpty then (m.voteAverage.getD 5) / 10
  else
    let prefs := userGenrePrefs catalog ur
    if prefs.isEmpty then 1/2
    else
      let contribs := m.genres.filterMap (fun g =>
        (prefs.find? (fun p => p.1 = g)).map (fun p => max 0 ((p.2 - 1) / 4)))
      let genreSat : ℚ :=
        if contribs.length = 0 then 0 else contribs.sum / (contribs.length : ℚ)
      let va := m.voteAverage.getD 0
      let boost : ℚ := if ¬ va = 0 ∧ 7 ≤ va then 1/10 else 0
      let penalty : ℚ := if ¬ va = 0 ∧ va < 5 then 2/10 else 0
      clamp01 (genreSat + boost - penalty)

/-- `group_recommender._calculate_group_satisfaction`:
`0.6 * np.mean(sats) + 0.4 * np.min(sats)` clamped to `[0, 1]`, and 0 for
an empty satisfaction list. -/
def calculateGroupSatisfaction (catalog : List Movie) (m : Movie)
    (userIds : List Nat) (ratingsFor : Nat → List (Nat × ℚ)) : ℚ :=
  let sats := userIds.map (fun u => predictUserSatisfaction catalog m (ratingsFor u))
  match sats with
  | [] => 0
  | s :: rest =>
    clamp01 ((6/10) * ((s :: rest).sum / ((s :: rest).length : ℚ)) +
      (4/10) * listMin s rest)

/-- The per-user rating dict `{rating.movie_id: rating.rating}`. -/
def ratingsForUser (ratings : List Rating) (u : Nat) : List (Nat × ℚ) :=
  (ratings.filter (fun r => r.userId = u)).map (fun r => (r.movieId, r.rating))

/-- `group_recommender.get_group_recommendations(user_ids, limit,
min_satisfaction)`. A raw id is `some u` when it parses as a UUID and
`none` otherwise; both guards (`len(user_ids) < 2` before parsing,
`len(uuid_user_ids) < 2` after) return the empty list. Candidates whose
group satisfaction reaches the threshold are ranked descending and the
first `limit` returned. -/
def getGroupRecommendations (catalog : List Movie) (ratings : List Rating)
    (rawIds : List (Option Nat)) (limit : Nat) (minSatisfaction : ℚ) :
    List Movie :=
  if rawIds.length < 2 then []
  else
    let uids := rawIds.filterMap id
    if uids.length < 2 then []
    else
      let ratingsFor := ratingsForUser ratings
      let allRated := uids.flatMap (fun u => (ratingsFor u).map (·.1))
      let cands := findConsensusCandidates catalog ratingsFor uids allRated
      let scored := cands.map
        (fun m => (m, calculateGroupSatisfaction catalog m uids ratingsFor))
      let kept := scored.filter (fun p => minSatisfaction ≤ p.2)
      let sorted := kept.insertionSort (descBy (fun p => p.2))
      (sorted.take limit).map (·.1)

/-- Cosine similarity of two feature vectors, as `sklearn`'s
`cosine_similarity` computes each cell: dot product over the product of
Euclidean norms. -/
noncomputable def cosineSim {d : Nat} (u v : Fin d → ℝ) : ℝ :=
  (∑ k, u k * v k) /
    (Real.sqrt (∑ k, u k ^ 2) * Real.sqrt (∑ k, v k ^ 2))

/-- One cell of the content similarity matrix
(`0.7 * text_similarity + 0.3 * numerical_similarity` in
`content_based._compute_similarity_matrix`), over the TF-IDF row vectors
`text` and the scaled numeric row vectors `numeric`. -/
noncomputable def contentSimilarityEntry {n dt dn : Nat}
    (text : Fin n → Fin dt → ℝ) (numeric : Fin n → Fin dn → ℝ)
    (i j : Fin n) : ℝ :=
  (7/10) * cosineSim (text i) (text j) + (3/10) * cosineSim (numeric i) (numeric j)

/-- One cell of the collaborative user-user similarity matrix
(`cosine_similarity(self.user_movie_matrix)` in
`collaborative._compute_user_item_matrix`), over the user rating row
vectors. -/
noncomputable def userSimilarityEntry {n d : Nat}
    (matrixRows : Fin n → Fin d → ℝ) (i j : Fin n) : ℝ :=
  cosineSim (matrixRows i) (matrixRows j)

/-- Spec-side view of a candidate's contributions in
`content_based.get_recommendations`: over every highly rated source movie
whose fetched neighborhood lists the candidate, one term
`similarity * (user_rating / 5.0)`. -/
def contribsOf (idx : ContentIndex) (catalog : List Movie) (userHigh : List Rating)
    (ratedIds : List Nat) (mid : Nat) : List ℚ :=
  userHigh.flatMap (fun r =>
    ((getSimilarMoviesInternal idx catalog r.movieId 20 ratedIds).filter
      (fun p => p.1.id = mid)).map (fun p => p.2 * (r.rating / 5)))

/-- Spec-side view of a user's ratings in one genre: one copy of the
user's rating of `m` for each occurrence of `g` on a rated catalog
movie `m`. -/
def genreRatingsOf (catalog : List Movie) (ur : List (Nat × ℚ)) (g : String) :
    List ℚ :=
  (catalog.filter (fun m => ur.any (fun p => p.1 = m.id))).flatMap
    (fun m => (m.genres.filter (fun x => x = g)).map (fun _ => ratingOf ur m.id))

/-- Spec-side "this member supports the genre": at least 2 ratings in the
genre and an average rating there of at least 3.5. -/
def memberLikesGenre (catalog : List Movie) (ur : List (Nat × ℚ)) (g : String) :
    Prop :=
  ¬ ur = [] ∧ 2 ≤ (genreRatingsOf catalog ur g).length ∧
    (7/2 : ℚ) ≤ (genreRatingsOf catalog ur g).sum /
      ((genreRatingsOf catalog ur g).length : ℚ)

instance (catalog : List Movie) (ur : List (Nat × ℚ)) (g : String) :
    Decidable (memberLikesGenre catalog ur g) :=
  inferInstanceAs (Decidable (_ ∧ _ ∧ _))

/-- Fixture (claims about the content scorer): two similar Action movies,
and user 7 who rated movie 1 with 5.0 and movie 2 with only 3.0. -/
def exMovie1 : Movie := ⟨1, ["Action"], none, none, none, none, 150, true⟩

/-- Fixture: the second movie of the pair, rated 3.0 by user 7. -/
def exMovie2 : Movie := ⟨2, ["Action"], none, none, none, none, 140, true⟩

/-- Fixture catalog of the two movies. -/
def exCatalog : List Movie := [exMovie1, exMovie2]

/-- Fixture ratings of user 7: movie 1 ↦ 5.0, movie 2 ↦ 3.0. -/
def exRatings : List Rating := [⟨7, 1, 5⟩, ⟨7, 2, 3⟩]

/-- Fixture content index over movie ids 1, 2 with cross similarity 0.9. -/
def exIdx : ContentIndex := ⟨[1, 2], fun i j => if i = j then 1 else 9/10⟩

/-- Fixture for the mood scorer: a Comedy with 25 votes. -/
def wmMovie : Movie := ⟨1, ["Comedy"], none, none, none, none, 25, true⟩

/-- Fixture catalog holding `wmMovie`. -/
def wmCatalog : List Movie := [wmMovie]

/-- Fixture ratings: user 7 rated (unrelated) movie 2. -/
def wmRatings : List Rating := [⟨7, 2, 5⟩]

/-- Fixture for the collaborative scorer: the movie (id 6) that similar
users rated highly and user 1 never rated. -/
def wcMovie : Movie := ⟨6, ["Action"], none, none, none, none, 10, true⟩

/-- Fixture catalog holding `wcMovie`. -/
def wcCatalog : List Movie := [wcMovie]

/-- Fixture rating store large enough for the collaborative matrix:
users 1–20 each rate movies 1–5 with 4.0, and users 2–6 additionally
rate movie 6 with 5.0 (105 ratings in total). -/
def wcRatings : List Rating :=
  ((List.range 20).flatMap (fun u => (List.range 5).map (fun m => ⟨u + 1, m + 1, 4⟩))) ++
    (List.range 5).map (fun u => ⟨u + 2, 6, 5⟩)

/-- Fixture (average-versus-sum discriminator): source movie 1. -/
def disMovie1 : Movie := ⟨1, ["Action"], none, none, none, none, 150, true⟩

/-- Fixture: source movie 2. -/
def disMovie2 : Movie := ⟨2, ["Action"], none, none, none, none, 140, true⟩

/-- Fixture: the candidate movie 3. -/
def disMovie3 : Movie := ⟨3, ["Action"], none, none, none, none, 130, true⟩

/-- Fixture catalog of the three movies. -/
def disCatalog : List Movie := [disMovie1, disMovie2, disMovie3]

/-- Fixture ratings of user 7: movie 1 ↦ 5.0, movie 2 ↦ 4.0. -/
def disRatings : List Rating := [⟨7, 1, 5⟩, ⟨7, 2, 4⟩]

/-- Fixture index: sim(1,2)=0.5, sim(1,3)=0.6, sim(2,3)=0.3 (by position). -/
def disIdx : ContentIndex :=
  ⟨[1, 2, 3], fun i j =>
    if i = j then 1
    else if (i = 0 ∧ j = 1) ∨ (i = 1 ∧ j = 0) then 1/2
    else if (i = 0 ∧ j = 2) ∨ (i = 2 ∧ j = 0) then 6/10
    else 3/10⟩

/-- Fixture for the group scorer: popular quality movie, vote average 9. -/
def grpMovie1 : Movie := ⟨1, ["Drama"], none, none, some 9, some 5, 150, true⟩

/-- Fixture: second popular quality movie, vote average 8. -/
def grpMovie2 : Movie := ⟨2, ["Drama"], none, none, some 8, some 3, 200, true⟩

/-- Fixture catalog of the two group-scorer movies. -/
def grpCatalog : List Movie := [grpMovie1, grpMovie2]

/-- Fixture Horror movie 1 for the common-genre boundary scenario. -/
def horrorMovie1 : Movie := ⟨1, ["Horror"], none, none, none, none, 60, true⟩

/-- Fixture Horror movie 2 for the common-genre boundary scenario. -/
def horrorMovie2 : Movie := ⟨2, ["Horror"], none, none, none, none, 70, true⟩

/-- Fixture catalog for the common-genre boundary scenario. -/
def horrorCatalog : List Movie := [horrorMovie1, horrorMovie2]

/-- Fixture ratings: members 21 and 22 average Horror ≥ 4.0 over two
ratings each, member 23 averages 2.0. -/
def horrorRatings : List Rating :=
  [⟨21, 1, 4⟩, ⟨21, 2, 4⟩, ⟨22, 1, 4⟩, ⟨22, 2, 5⟩, ⟨23, 1, 2⟩, ⟨23, 2, 2⟩]

/-- Fixture review with strictly positive sentiment polarity +0.8. -/
def scaredReview : Review := ⟨5, some "surprisingly fun and uplifting", 4/5, true⟩

/-- Fixture review list holding only `scaredReview`. -/
def scaredReviews : List Review := [scaredReview]

/-- Fixture: 25 ratings by user 1 (an active user for the hybrid
weight schedule). -/
def manyRatings : List Rating := (List.range 25).map (fun i => ⟨1, i, 5⟩)

theorem charOfNat_toNat (n : Nat) (h : n.isValidChar) : (Char.ofNat n).toNat = n := by
  rw [Char.ofNat, dif_pos h]
  simp [Char.ofNatAux, Char.toNat, UInt32.toNat]

theorem charToLower_idem (c : Char) : c.toLower.toLower = c.toLower := by
  unfold Char.toLower
  by_cases h : c.toNat ≥ 65 ∧ c.toNat ≤ 90
  · rw [if_pos h]
    have hv : (c.toNat + 32).isValidChar := Or.inl (by omega)
    rw [charOfNat_toNat _ hv, if_neg (by omega)]
  · rw [if_neg h, if_neg h]

theorem pyLower_idem (s : String) : pyLower (pyLower s) = pyLower s := by
  show String.mk ((s.data.map Char.toLower).map Char.toLower) = _
  rw [List.map_map]
  exact congrArg String.mk (List.map_congr_left fun a _ => charToLower_idem a)

theorem lookupKey_bump {κ β : Type} [DecidableEq κ] (acc : List (κ × β)) (k k' : κ)
    (u : β → β) (init : β) :
    lookupKey (bump acc k u init) k' =
      if k' = k then some (u ((lookupKey acc k).getD init)) else lookupKey acc k' := by
  unfold bump lookupKey
  by_cases ha : acc.any (fun e => e.1 = k)
  · rw [if_pos ha, List.find?_map]
    have hpf : ∀ e : κ × β,
        ((fun e : κ × β => decide (e.1 = k')) ∘
          (fun e : κ × β => if e.1 = k then (e.1, u e.2) else e)) e =
        (fun e : κ × β => decide (e.1 = k')) e := by
      intro e
      by_cases h : e.1 = k <;> simp [h]
    rw [show ((fun e : κ × β => decide (e.1 = k')) ∘
          (fun e : κ × β => if e.1 = k then (e.1, u e.2) else e)) =
        (fun e : κ × β => decide (e.1 = k')) from funext hpf]
    by_cases hk : k' = k
    · subst hk
      rw [if_pos rfl]
      rcases List.any_eq_true.mp ha with ⟨e, he, hpe⟩
      have hsome : (acc.find? (fun e => e.1 = k')).isSome := by
        rw [List.find?_isSome]
        exact ⟨e, he, hpe⟩
      rcases Option.isSome_iff_exists.mp hsome with ⟨e0, he0⟩
      have hke : e0.1 = k' := by simpa using List.find?_some he0
      rw [he0]
      simp [hke]
    · rw [if_neg hk]
      cases hfind : acc.find? (fun e => e.1 = k') with
      | none => simp
      | some e0 =>
        have hke : e0.1 = k' := by simpa using List.find?_some hfind
        have hne : ¬ e0.1 = k := by rw [hke]; exact hk
        simp [hne]
  · rw [if_neg ha, List.find?_append]
    have hnone : acc.find? (fun e => e.1 = k) = none := by
      rw [List.find?_eq_none]
      simp only [List.any_eq_true, not_exists, not_and] at ha
      intro x hx
      simpa using ha x hx
    by_cases hk : k' = k
    · subst hk
      rw [hnone, if_pos rfl]
      simp [List.find?_singleton, hnone]
    · have hsingle : ([(k, u init)].find? (fun e => e.1 = k')) = none := by
        rw [List.find?_singleton, if_neg]
        simp [Ne.symm hk]
      rw [hsingle, if_neg hk]
      simp

theorem lookupKey_foldBump {κ α β : Type} [DecidableEq κ] (u : α → β → β) (init : β)
    (ps : List (κ × α)) (k : κ) :
    lookupKey (foldBump u init ps) k =
      if (ps.filter (fun p => p.1 = k)).isEmpty then none
      else some ((ps.filter (fun p => p.1 = k)).foldl (fun b p => u p.2 b) init) := by
  induction ps using List.reverseRecOn with
  | nil => simp [foldBump, lookupKey]
  | append_singleton l p ih =>
    have hstep : foldBump u init (l ++ [p]) = bump (foldBump u init l) p.1 (u p.2) init := by
      unfold foldBump
      rw [List.foldl_append]
      rfl
    rw [hstep, lookupKey_bump, List.filter_append]
    by_cases hk : k = p.1
    · subst hk
      rw [if_pos rfl, ih]
      have hp : (List.filter (fun q => decide (q.1 = p.1)) [p]) = [p] := by
        simp [List.filter]
      rw [hp]
      by_cases hf : (List.filter (fun q => decide (q.1 = p.1)) l).isEmpty
      · have hl : List.filter (fun q => decide (q.1 = p.1)) l = [] := by
          simpa [List.isEmpty_iff] using hf
        simp [hl]
      · have hne : ¬ ((List.filter (fun q => decide (q.1 = p.1)) l ++ [p]).isEmpty = true) := by
          simp [List.isEmpty_iff]
        rw [if_neg hf, if_neg hne, List.foldl_append]
        simp
    · rw [if_neg hk, ih]
      have hnp : ¬ p.1 = k := fun h => hk h.symm
      have hp : (List.filter (fun q => decide (q.1 = k)) [p]) = [] := by
        simp [List.filter, hnp]
      rw [hp, List.append_nil]

theorem foldBump_keysNodup {κ α β : Type} [DecidableEq κ] (u : α → β → β) (init : β)
    (ps : List (κ × α)) :
    (foldBump u init ps).Pairwise (fun a b => ¬ a.1 = b.1) := by
  suffices h : ∀ acc : List (κ × β), acc.Pairwise (fun a b => ¬ a.1 = b.1) →
      (ps.foldl (fun acc p => bump acc p.1 (u p.2) init) acc).Pairwise
        (fun a b => ¬ a.1 = b.1) by
    exact h [] (by simp)
  induction ps with
  | nil => exact fun acc h => h
  | cons p t ih =>
    intro acc h
    simp only [List.foldl_cons]
    apply ih
    unfold bump
    by_cases ha : acc.any (fun e => e.1 = p.1)
    · rw [if_pos ha]
      have hkey : ∀ e : κ × β,
          ((if e.1 = p.1 then (e.1, u p.2 e.2) else e) : κ × β).1 = e.1 := by
        intro e
        by_cases he : e.1 = p.1 <;> simp [he]
      rw [List.pairwise_map]
      refine List.Pairwise.imp ?_ h
      intro a b hab
      rw [hkey a, hkey b]
      exact hab
    · rw [if_neg ha, List.pairwise_append]
      refine ⟨h, by simp, ?_⟩
      intro a haacc b hb
      simp only [List.mem_singleton] at hb
      subst hb
      simp only [List.any_eq_true, not_exists, not_and] at ha
      simpa using ha a haacc

theorem lookupKey_of_mem {κ β : Type} [DecidableEq κ] {l : List (κ × β)} {e : κ × β}
    (hnd : l.Pairwise (fun a b => ¬ a.1 = b.1)) (he : e ∈ l) :
    lookupKey l e.1 = some e.2 := by
  induction l with
  | nil => cases he
  | cons a t ih =>
    rcases List.mem_cons.mp he with rfl | ht
    · unfold lookupKey
      rw [List.find?_cons_of_pos _ (by simp)]
      rfl
    · have hne : ¬ a.1 = e.1 := (List.pairwise_cons.mp hnd).1 e ht
      unfold lookupKey
      rw [List.find?_cons_of_neg _ (by simpa using hne)]
      exact ih (List.pairwise_cons.mp hnd).2 ht

theorem mem_foldBump_eq {κ α β : Type} [DecidableEq κ] {u : α → β → β} {init : β}
    {ps : List (κ × α)} {e : κ × β} (he : e ∈ foldBump u init ps) :
    ¬ (ps.filter (fun p => p.1 = e.1)).isEmpty = true ∧
      e.2 = (ps.filter (fun p => p.1 = e.1)).foldl (fun b p => u p.2 b) init := by
  have h1 := lookupKey_of_mem (foldBump_keysNodup u init ps) he
  rw [lookupKey_foldBump] at h1
  by_cases hf : (ps.filter (fun p => p.1 = e.1)).isEmpty
  · rw [if_pos hf] at h1
    cases h1
  · rw [if_neg hf] at h1
    exact ⟨hf, (Option.some.inj h1).symm⟩

theorem foldl_add_pairs {κ : Type} (l : List (κ × ℚ)) : ∀ b : ℚ,
    l.foldl (fun b p => b + p.2) b = b + (l.map (·.2)).sum := by
  induction l with
  | nil => intro b; simp
  | cons q t ih =>
    intro b
    simp only [List.foldl_cons, List.map_cons, List.sum_cons, ih]
    ring

theorem foldl_sumCount {κ : Type} (l : List (κ × ℚ)) : ∀ b : ℚ × ℕ,
    l.foldl (fun b p => (b.1 + p.2, b.2 + 1)) b =
      (b.1 + (l.map (·.2)).sum, b.2 + l.length) := by
  induction l with
  | nil => intro b; simp
  | cons q t ih =>
    intro b
    simp only [List.foldl_cons, List.map_cons, List.sum_cons, List.length_cons, ih]
    rw [Prod.mk.injEq]
    exact ⟨by ring, by omega⟩

theorem foldl_countUnit {κ : Type} (l : List (κ × Unit)) : ∀ b : ℕ,
    l.foldl (fun b _ => b + 1) b = b + l.length := by
  induction l with
  | nil => intro b; simp
  | cons q t ih =>
    intro b
    simp only [List.foldl_cons, List.length_cons, ih]
    omega

theorem candFoldl_pos (l : List (Nat × (Movie × ℚ))) : ∀ (mv : Movie) (s : ℚ) (c : ℕ),
    l.foldl (fun b p => candStep p.2 b) (mv, s, c + 1) =
      (mv, s + (l.map (fun p => p.2.2)).sum, c + 1 + l.length) := by
  induction l with
  | nil => intro mv s c; simp
  | cons q t ih =>
    intro mv s c
    simp only [List.foldl_cons, List.map_cons, List.sum_cons, List.length_cons]
    have hstep : candStep q.2 (mv, s, c + 1) = (mv, s + q.2.2, (c + 1) + 1) := by
      simp [candStep]
    rw [hstep, ih]
    simp only [Prod.mk.injEq, true_and]
    exact ⟨by ring, by omega⟩

theorem candFoldl_init (q : Nat × (Movie × ℚ)) (t : List (Nat × (Movie × ℚ))) :
    (q :: t).foldl (fun b p => candStep p.2 b) candInit =
      (q.2.1, q.2.2 + (t.map (fun p => p.2.2)).sum, 1 + t.length) := by
  simp only [List.foldl_cons]
  have hstep : candStep q.2 candInit = (q.2.1, q.2.2, 0 + 1) := by
    simp [candStep, candInit]
  rw [hstep, candFoldl_pos]

theorem mem_firstUniques {α : Type} [DecidableEq α] (l : List α) (x : α) :
    x ∈ firstUniques l ↔ x ∈ l := by
  suffices h : ∀ acc : List α,
      x ∈ l.foldl (fun acc a => if a ∈ acc then acc else acc ++ [a]) acc ↔
        x ∈ acc ∨ x ∈ l by
    simpa [firstUniques] using h []
  induction l with
  | nil => intro acc; simp
  | cons a t ih =>
    intro acc
    simp only [List.foldl_cons]
    by_cases ha : a ∈ acc
    · rw [if_pos ha, ih]
      simp only [List.mem_cons]
      constructor
      · rintro (hx | hx)
        · exact Or.inl hx
        · exact Or.inr (Or.inr hx)
      · rintro (hx | rfl | hx)
        · exact Or.inl hx
        · exact Or.inl ha
        · exact Or.inr hx
    · rw [if_neg ha, ih]
      simp only [List.mem_append, List.mem_singleton, List.mem_cons]
      tauto

theorem listMin_mem (h : ℚ) (t : List ℚ) : listMin h t ∈ h :: t := by
  induction t generalizing h with
  | nil => simp [listMin]
  | cons a t ih =>
    have hm := ih (min h a)
    show listMin (min h a) t ∈ h :: a :: t
    rcases List.mem_cons.mp hm with he | ht
    · rw [he]
      rcases min_choice h a with hc | hc <;> rw [hc] <;> simp
    · exact List.mem_cons_of_mem _ (List.mem_cons_of_mem _ ht)

theorem listMin_le (h : ℚ) (t : List ℚ) : ∀ x ∈ h :: t, listMin h t ≤ x := by
  induction t generalizing h with
  | nil =>
    intro x hx
    rcases List.mem_cons.mp hx with rfl | h2
    · simp [listMin]
    · cases h2
  | cons a t ih =>
    intro x hx
    have hbase : listMin (min h a) t ≤ min h a := ih (min h a) (min h a) (by simp)
    rcases List.mem_cons.mp hx with rfl | hx2
    · exact le_trans hbase (min_le_left _ _)
    · rcases List.mem_cons.mp hx2 with rfl | hx3
      · exact le_trans hbase (min_le_right _ _)
      · exact ih (min h a) x (List.mem_cons_of_mem _ hx3)

theorem collectSimilar_sound (catalog : List Movie) (ids excl : List Nat) (lim : Nat) :
    ∀ (ps : List (Nat × ℚ)) (acc : List (Movie × ℚ)),
      (∀ q ∈ acc, q.1.id ∉ excl) →
      ∀ q ∈ collectSimilar catalog ids excl lim ps acc, q.1.id ∉ excl := by
  intro ps
  induction ps with
  | nil =>
    intro acc hacc q hq
    exact hacc q hq
  | cons p t ih =>
    intro acc hacc q hq
    rw [collectSimilar] at hq
    split at hq
    · exact hacc q hq
    · split at hq
      · exact ih acc hacc q hq
      · split at hq
        · exact ih acc hacc q hq
        · split at hq
          · rename_i mid hget hexcl hlim m hfind
            refine ih (acc ++ [(m, p.2)]) ?_ q hq
            intro q' hq'
            rcases List.mem_append.mp hq' with hin | hnew
            · exact hacc q' hin
            · have hq'' : q' = (m, p.2) := by simpa using hnew
              subst hq''
              have hid : m.id = mid := by simpa using List.find?_some hfind
              rw [hid]
              exact hexcl
          · exact ih acc hacc q hq

theorem getSimilar_sound (idx : ContentIndex) (catalog : List Movie)
    (movieId lim : Nat) (excl : List Nat) :
    ∀ q ∈ getSimilarMoviesInternal idx catalog movieId lim excl, q.1.id ∉ excl := by
  intro q hq
  rw [getSimilarMoviesInternal] at hq
  split at hq
  · cases hq
  · exact collectSimilar_sound catalog idx.movieIds excl lim _ [] (by simp) q hq

theorem contentPairStream_elem {idx : ContentIndex} {catalog : List Movie}
    {userHigh : List Rating} {ratedIds : List Nat} {e : Nat × (Movie × ℚ)}
    (he : e ∈ contentPairStream idx catalog userHigh ratedIds) :
    e.2.1.id ∉ ratedIds ∧ e.1 = e.2.1.id := by
  rw [contentPairStream, List.mem_flatMap] at he
  obtain ⟨r, _, he2⟩ := he
  rw [List.mem_map] at he2
  obtain ⟨p, hp, rfl⟩ := he2
  exact ⟨getSimilar_sound idx catalog r.movieId 20 ratedIds p hp, rfl⟩

theorem buildCandidates_elem {idx : ContentIndex} {catalog : List Movie}
    {userHigh : List Rating} {ratedIds : List Nat} {e : Nat × (Movie × ℚ × Nat)}
    (he : e ∈ buildCandidates idx catalog userHigh ratedIds) :
    ∃ q ∈ contentPairStream idx catalog userHigh ratedIds,
      q.1 = e.1 ∧ e.2.1 = q.2.1 := by
  obtain ⟨hne, hval⟩ := mem_foldBump_eq he
  cases hfl : (contentPairStream idx catalog userHigh ratedIds).filter
      (fun p => p.1 = e.1) with
  | nil => rw [hfl] at hne; simp at hne
  | cons q t =>
    have hqf : q ∈ (contentPairStream idx catalog userHigh ratedIds).filter
        (fun p => p.1 = e.1) := by
      rw [hfl]
      exact List.mem_cons_self q t
    obtain ⟨hqs, hqk⟩ := List.mem_filter.mp hqf
    refine ⟨q, hqs, by simpa using hqk, ?_⟩
    rw [hval, hfl, candFoldl_init]

theorem buildCandidates_scoreCount {idx : ContentIndex} {catalog : List Movie}
    {userHigh : List Rating} {ratedIds : List Nat} {e : Nat × (Movie × ℚ × Nat)}
    (he : e ∈ buildCandidates idx catalog userHigh ratedIds) :
    e.2.2.1 = (contribsOf idx catalog userHigh ratedIds e.1).sum ∧
      e.2.2.2 = (contribsOf idx catalog userHigh ratedIds e.1).length := by
  obtain ⟨hne, hval⟩ := mem_foldBump_eq he
  have hmapeq : ((contentPairStream idx catalog userHigh ratedIds).filter
        (fun p => p.1 = e.1)).map (fun p => p.2.2) =
      contribsOf idx catalog userHigh ratedIds e.1 := by
    rw [contentPairStream, contribsOf, List.filter_flatMap, List.map_flatMap]
    refine congrArg _ (funext fun r => ?_)
    rw [List.filter_map, List.map_map]
    rfl
  cases hfl : (contentPairStream idx catalog userHigh ratedIds).filter
      (fun p => p.1 = e.1) with
  | nil => rw [hfl] at hne; simp at hne
  | cons q t =>
    rw [hfl] at hmapeq
    rw [hval, hfl, candFoldl_init]
    constructor
    · show q.2.2 + (t.map (fun p => p.2.2)).sum = _
      rw [← hmapeq]
      simp
    · show 1 + t.length = _
      rw [← hmapeq]
      simp only [List.length_map, List.length_cons]
      omega

theorem content_exclusion (idx : ContentIndex) (catalog : List Movie)
    (ratings : List Rating) (userId limit : Nat)
    (hne : ¬ (highRatings ratings userId).isEmpty = true) :
    ∀ mv ∈ contentGetRecommendations idx catalog ratings userId limit true,
      ¬ ∃ r ∈ ratings, r.userId = userId ∧ (4 : ℚ) ≤ r.rating ∧ r.movieId = mv.id := by
  intro mv hmv
  rw [contentGetRecommendations] at hmv
  rw [if_neg hne] at hmv
  rw [List.mem_map] at hmv
  obtain ⟨v, hv, rfl⟩ := hmv
  have hv2 := List.take_subset _ _ hv
  have hv3 := (List.perm_insertionSort (descBy avgScore) _).mem_iff.mp hv2
  rw [List.mem_map] at hv3
  obtain ⟨e, he, rfl⟩ := hv3
  obtain ⟨qq, hq, _, hmeq⟩ := buildCandidates_elem he
  obtain ⟨hnotin, _⟩ := contentPairStream_elem hq
  rintro ⟨r, hr, hru, hge, hrm⟩
  have hrh : r ∈ highRatings ratings userId :=
    List.mem_filter.mpr ⟨hr, by simp [hru, hge]⟩
  have hnotin2 : qq.2.1.id ∉ (highRatings ratings userId).map (·.movieId) := by
    simpa using hnotin
  apply hnotin2
  rw [List.mem_map]
  exact ⟨r, hrh, by rw [hrm, hmeq]⟩

theorem mem_collabActiveUsers_count {ratings : List Rating} {u : Nat}
    (hu : u ∈ collabActiveUsers ratings) : 5 ≤ userRatingCount ratings u := by
  rw [collabActiveUsers, mem_firstUniques, List.mem_map] at hu
  obtain ⟨r, hr, rfl⟩ := hu
  have := (List.mem_filter.mp hr).2
  simp only [decide_eq_true_eq] at this
  exact this.1

theorem mem_collabActiveMovies_count {ratings : List Rating} {m : Nat}
    (hm : m ∈ collabActiveMovies ratings) : 5 ≤ movieRatingCount ratings m := by
  rw [collabActiveMovies, mem_firstUniques, List.mem_map] at hm
  obtain ⟨r, hr, rfl⟩ := hm
  have := (List.mem_filter.mp hr).2
  simp only [decide_eq_true_eq] at this
  exact this.2

theorem collabEntry_pos {ratings : List Rating} {u mid : Nat}
    (hpos : ∀ r ∈ ratings, 0 < r.rating)
    (hu : 5 ≤ userRatingCount ratings u) (hm : 5 ≤ movieRatingCount ratings mid)
    {r : Rating} (hr : r ∈ ratings) (hru : r.userId = u) (hrm : r.movieId = mid) :
    0 < collabEntry (filteredRatings ratings) u mid := by
  have hrf : r ∈ filteredRatings ratings :=
    List.mem_filter.mpr ⟨hr, by simp [hru, hrm, hu, hm]⟩
  rw [collabEntry]
  cases hfind : (filteredRatings ratings).reverse.find?
      (fun x => x.userId = u ∧ x.movieId = mid) with
  | none =>
    rw [List.find?_eq_none] at hfind
    exact absurd (by simp [hru, hrm] : _) (hfind r (List.mem_reverse.mpr hrf))
  | some r0 =>
    have hr0f : r0 ∈ filteredRatings ratings :=
      List.mem_reverse.mp (List.mem_of_find?_eq_some hfind)
    rw [filteredRatings] at hr0f
    exact hpos r0 (List.mem_of_mem_filter hr0f)

theorem collabPairStream_elem {ratings : List Rating} {userId : Nat}
    {simUsers : List (Nat × ℚ)} {e : Nat × ℚ}
    (he : e ∈ collabPairStream ratings userId simUsers) :
    e.1 ∈ collabActiveMovies ratings ∧
      ¬ 0 < collabEntry (filteredRatings ratings) userId e.1 := by
  rw [collabPairStream] at he
  simp only [List.mem_flatMap, List.mem_map, List.mem_filter] at he
  obtain ⟨su, _, m, ⟨hmA, hcond⟩, rfl⟩ := he
  simp only [decide_eq_true_eq] at hcond
  exact ⟨hmA, fun hposm => hcond.2 ⟨hmA, hposm⟩⟩

theorem collab_exclusion (ratings : List Rating) (catalog : List Movie)
    (userId : Nat) (simUsers : List (Nat × ℚ)) (limit : Nat)
    (hpos : ∀ r ∈ ratings, 0 < r.rating)
    (hbuilt : collabBuilt ratings = true)
    (hact : userId ∈ collabActiveUsers ratings) :
    ∀ mv ∈ collabGetRecommendations ratings catalog userId simUsers limit,
      ¬ ∃ r ∈ ratings, r.userId = userId ∧ r.movieId = mv.id := by
  intro mv hmv
  rw [collabGetRecommendations] at hmv
  rw [if_neg (by simp [hbuilt]), if_neg (by simp [hact])] at hmv
  rw [List.mem_filterMap] at hmv
  obtain ⟨mid, hmid, hfind⟩ := hmv
  have hmvid : mv.id = mid := by simpa using List.find?_some hfind
  rw [List.mem_map] at hmid
  obtain ⟨pe, hpe, rfl⟩ := hmid
  have hpe2 := List.take_subset _ _ hpe
  have hpe3 := (List.perm_insertionSort (descBy (fun p : Nat × ℚ => p.2)) _).mem_iff.mp hpe2
  have hqex : ∃ q ∈ collabPairStream ratings userId simUsers, q.1 = pe.1 := by
    have hh := mem_foldBump_eq hpe3
    obtain ⟨hne2, _⟩ := hh
    cases hfl : (collabPairStream ratings userId simUsers).filter
        (fun p => p.1 = pe.1) with
    | nil => rw [hfl] at hne2; simp at hne2
    | cons q t =>
      have hqf : q ∈ (collabPairStream ratings userId simUsers).filter
          (fun p => p.1 = pe.1) := by
        rw [hfl]
        exact List.mem_cons_self q t
      obtain ⟨hqs, hqk⟩ := List.mem_filter.mp hqf
      exact ⟨q, hqs, by simpa using hqk⟩
  obtain ⟨q, hq, hkeq⟩ := hqex
  obtain ⟨hmA, hnotrated⟩ := collabPairStream_elem hq
  rintro ⟨r, hr, hru, hrm⟩
  apply hnotrated
  rw [hkeq]
  rw [hmvid] at hrm
  rw [hkeq] at hmA
  exact collabEntry_pos hpos (mem_collabActiveUsers_count hact)
    (mem_collabActiveMovies_count hmA) hr hru hrm

theorem mood_exclusion (catalog : List Movie) (ratings : List Rating)
    (reviews : List Review) (logf : ℚ → ℚ) (userId : Nat) (mood : String)
    (limit : Nat) :
    ∀ mv ∈ getMoodRecommendations catalog ratings reviews logf userId mood limit,
      ¬ ∃ r ∈ ratings, r.userId = userId ∧ r.movieId = mv.id := by
  intro mv hmv
  rw [getMoodRecommendations] at hmv
  split at hmv
  · cases hmv
  · dsimp only at hmv
    split at hmv
    · cases hmv
    · rw [List.mem_map] at hmv
      obtain ⟨p, hp, rfl⟩ := hmv
      have hp2 := List.take_subset _ _ hp
      have hp3 := (List.perm_insertionSort _ _).mem_iff.mp hp2
      rw [List.mem_map] at hp3
      obtain ⟨m, hm, rfl⟩ := hp3
      have hcond := (List.mem_filter.mp hm).2
      simp only [decide_eq_true_eq] at hcond
      rintro ⟨r, hr, hru, hrm⟩
      apply hcond.2.2.2
      rw [List.mem_map]
      exact ⟨r, List.mem_filter.mpr ⟨hr, by simp [hru]⟩, hrm⟩

/-- C1: the hybrid aggregator's weight schedule is decided exactly by the
requesting user's total rating count: fewer than 5 ratings gives weights
(content 0.6, collaborative 0.1, popularity 0.3); at least 5 and fewer
than 20 gives (0.5, 0.3, 0.2); 20 or more gives (0.3, 0.6, 0.1). In
particular a count of 0 gives content weight 0.6 and a count of 25 gives
collaborative weight 0.6, with the boundaries exactly at 5 and 20. -/
theorem hybrid_weight_schedule (ratings : List Rating) (u : Nat) :
    (userRatingCount ratings u < 5 →
      hybridWeights (userRatingCount ratings u) = (6/10, 1/10, 3/10)) ∧
    (5 ≤ userRatingCount ratings u → userRatingCount ratings u < 20 →
      hybridWeights (userRatingCount ratings u) = (5/10, 3/10, 2/10)) ∧
    (20 ≤ userRatingCount ratings u →
      hybridWeights (userRatingCount ratings u) = (3/10, 6/10, 1/10)) ∧
    (hybridWeights 0).1 = 6/10 ∧ (hybridWeights 25).2.1 = 6/10 := by
  refine ⟨?_, ?_, ?_, by decide, by decide⟩
  · intro h
    rw [hybridWeights, if_pos h]
  · intro h1 h2
    rw [hybridWeights, if_neg (by omega), if_pos h2]
  · intro h
    rw [hybridWeights, if_neg (by omega), if_neg (by omega)]

/-- C1 witness: the schedule applied to a concrete user holding 25
ratings. -/
theorem hybrid_weight_schedule_witness :
    20 ≤ userRatingCount manyRatings 1 ∧
      hybridWeights (userRatingCount manyRatings 1) = (3/10, 6/10, 1/10) :=
  ⟨by decide, (hybrid_weight_schedule manyRatings 1).2.2.1 (by decide)⟩

/-- C8: every built similarity matrix is symmetric: both the content
matrix 0.7·text_cosine + 0.3·numeric_cosine and the collaborative
user-user cosine matrix satisfy sim[i][j] = sim[j][i] (exactly, over ℝ). -/
theorem similarity_matrices_symmetric :
    (∀ (n dt dn : Nat) (text : Fin n → Fin dt → ℝ) (numeric : Fin n → Fin dn → ℝ)
        (i j : Fin n),
      contentSimilarityEntry text numeric i j = contentSimilarityEntry text numeric j i) ∧
    (∀ (n d : Nat) (matrixRows : Fin n → Fin d → ℝ) (i j : Fin n),
      userSimilarityEntry matrixRows i j = userSimilarityEntry matrixRows j i) := by
  have hcos : ∀ (d : Nat) (u v : Fin d → ℝ), cosineSim u v = cosineSim v u := by
    intro d u v
    rw [cosineSim, cosineSim, mul_comm (Real.sqrt _) (Real.sqrt _)]
    congr 1
    exact Finset.sum_congr rfl (fun k _ => mul_comm _ _)
  constructor
  · intro n dt dn text numeric i j
    rw [contentSimilarityEntry, contentSimilarityEntry, hcos _ (text i) (text j),
      hcos _ (numeric i) (numeric j)]
  · intro n d M i j
    rw [userSimilarityEntry, userSimilarityEntry, hcos _ (M i) (M j)]

/-- C9: the review-sentiment compatibility term: for happy/excited/energetic
only positive polarity counts (max 0 p); for sad/thoughtful the absolute
polarity; for scared only negative polarity — a positive-polarity review
contributes exactly 0; every other mood contributes half the absolute
polarity; the score averages the contributions over the sampled reviews;
and the movie whose single review has polarity +0.8 scores 0 for
"scared". -/
theorem sentiment_mood_cases :
    (∀ (mood : String) (p : ℚ), mood ∈ (["happy", "excited", "energetic"] : List String) →
      sentimentContribution mood p = max 0 p) ∧
    (∀ (mood : String) (p : ℚ), mood ∈ (["sad", "thoughtful"] : List String) →
      sentimentContribution mood p = |p|) ∧
    (∀ p : ℚ, 0 ≤ p → sentimentContribution "scared" p = 0) ∧
    (∀ p : ℚ, p < 0 → sentimentContribution "scared" p = -p) ∧
    (∀ (mood : String) (p : ℚ),
      mood ∉ (["happy", "excited", "energetic", "sad", "thoughtful", "scared"] : List String) →
      sentimentContribution mood p = |p| / 2) ∧
    (∀ (reviews : List Review) (movieId : Nat) (mood : String),
      ¬ (((reviews.filter (fun v => v.movieId = movieId ∧ v.approved)).take 10).filter
          (fun v => ¬ v.content.getD "" = "")).length = 0 →
      reviewSentimentScore reviews movieId mood =
        ((((reviews.filter (fun v => v.movieId = movieId ∧ v.approved)).take 10).filter
            (fun v => ¬ v.content.getD "" = "")).map
          (fun v => sentimentContribution mood v.polarity)).sum /
        (((((reviews.filter (fun v => v.movieId = movieId ∧ v.approved)).take 10).filter
            (fun v => ¬ v.content.getD "" = "")).length : ℚ))) ∧
    (0 : ℚ) < scaredReview.polarity ∧
    reviewSentimentScore scaredReviews 5 "scared" = 0 := by
  refine ⟨?_, ?_, ?_, ?_, ?_, ?_, by decide, by decide⟩
  · intro mood p h
    simp only [List.mem_cons, List.not_mem_nil, or_false] at h
    rcases h with rfl | rfl | rfl <;>
      · rw [sentimentContribution, if_pos (by decide)]
  · intro mood p h
    simp only [List.mem_cons, List.not_mem_nil, or_false] at h
    rcases h with rfl | rfl <;>
      · rw [sentimentContribution, if_neg (by decide), if_pos (by decide)]
  · intro p hp
    rw [sentimentContribution, if_neg (by decide), if_neg (by decide),
      if_pos (by decide), if_neg (not_lt.mpr hp)]
  · intro p hp
    rw [sentimentContribution, if_neg (by decide), if_neg (by decide),
      if_pos (by decide), if_pos hp, max_eq_right (by linarith)]
  · intro mood p h
    simp only [List.mem_cons, List.not_mem_nil, or_false, not_or] at h
    obtain ⟨h1, h2, h3, h4, h5, h6⟩ := h
    rw [sentimentContribution, if_neg (by simp [h1, h2, h3]),
      if_neg (by simp [h4, h5]), if_neg (by simp [h6])]
    ring
  · intro reviews movieId mood hne
    simp only [reviewSentimentScore]
    rw [if_neg hne]

/-- C9 witness: the case analysis applied at concrete polarities, among
them the "scared"-with-positive-polarity case contributing zero. -/
theorem sentiment_mood_cases_witness :
    sentimentContribution "scared" (4/5) = 0 ∧
      sentimentContribution "happy" (1/2) = max 0 (1/2) ∧
      sentimentContribution "romantic" (1/2) = |(1/2 : ℚ)| / 2 :=
  ⟨sentiment_mood_cases.2.2.1 (4/5) (by norm_num),
    sentiment_mood_cases.1 "happy" (1/2) (by decide),
    sentiment_mood_cases.2.2.2.2.1 "romantic" (1/2) (by decide)⟩

/-- C6 counterexample: the string "HAPPY" is not one of the ten vocabulary
labels, yet the mood call succeeds (the endpoint lowercases before the
lookup) instead of failing with InvalidMood. -/
theorem mood_vocab_counterexample :
    "HAPPY" ∉ validMoods ∧
      moodEndpoint [] [] [] (fun _ => 0) 0 "HAPPY" 10 = Except.ok [] := by
  constructor
  · decide
  · rfl

/-- C6 amended: for every mood string whose LOWERCASING is outside the
ten-label vocabulary, the endpoint fails with InvalidMood before any
scoring, and the analyzer itself returns the empty list — no partial
recommendation output is produced. -/
theorem mood_invalid_rejected (catalog : List Movie) (ratings : List Rating)
    (reviews : List Review) (logf : ℚ → ℚ) (userId : Nat) (mood : String)
    (limit : Nat) (h : pyLower mood ∉ validMoods) :
    moodEndpoint catalog ratings reviews logf userId mood limit =
        Except.error RecFailure.invalidMood ∧
      getMoodRecommendations catalog ratings reviews logf userId mood limit = [] := by
  constructor
  · rw [moodEndpoint, if_pos h]
  · have hkeys : pyLower mood ∉ moodKeys := by
      have : moodKeys = validMoods := rfl
      rw [this]
      exact h
    rw [getMoodRecommendations]
    dsimp only
    rw [if_pos hkeys]

/-- C6 witness: the rejection applied to the concrete unknown mood
"spooky". -/
theorem mood_invalid_rejected_witness :
    moodEndpoint [] [] [] (fun _ => 0) 0 "spooky" 10 =
        Except.error RecFailure.invalidMood ∧
      getMoodRecommendations [] [] [] (fun _ => 0) 0 "spooky" 10 = [] :=
  mood_invalid_rejected [] [] [] (fun _ => 0) 0 "spooky" 10 (by decide)

/-- C10: mood matching is case-insensitive: both the endpoint and the
analyzer agree on `m` and on `lowercase(m)`, and the endpoint succeeds
exactly when `lowercase(m)` is one of the ten labels. -/
theorem mood_case_insensitive (catalog : List Movie) (ratings : List Rating)
    (reviews : List Review) (logf : ℚ → ℚ) (userId : Nat) (mood : String)
    (limit : Nat) :
    moodEndpoint catalog ratings reviews logf userId mood limit =
        moodEndpoint catalog ratings reviews logf userId (pyLower mood) limit ∧
      getMoodRecommendations catalog ratings reviews logf userId mood limit =
        getMoodRecommendations catalog ratings reviews logf userId (pyLower mood) limit ∧
      ((∃ l, moodEndpoint catalog ratings reviews logf userId mood limit =
          Except.ok l) ↔ pyLower mood ∈ validMoods) := by
  refine ⟨?_, ?_, ?_⟩
  · rw [moodEndpoint, moodEndpoint, pyLower_idem]
  · rw [getMoodRecommendations, getMoodRecommendations, pyLower_idem]
  · rw [moodEndpoint]
    by_cases h : pyLower mood ∈ validMoods
    · rw [if_neg (not_not_intro h)]
      simp [h]
    · rw [if_pos h]
      simp [h]

/-- C7 counterexample: two copies of the same valid user id (only ONE
distinct valid id) pass the size guard, and the group call succeeds with
a non-empty ranked list, so the code does not require 2 distinct ids and
raises no InvalidGroupSize failure for this input. -/
theorem group_distinct_counterexample :
    (firstUniques (([some 10, some 10] : List (Option Nat)).filterMap id)).length = 1 ∧
      getGroupRecommendations grpCatalog [] [some 10, some 10] 10 (6/10) =
        [grpMovie1, grpMovie2] := by
  constructor
  · decide
  · decide

/-- C7 amended: `get_group_recommendations` signals failure by returning
the empty list (no InvalidGroupSize exception exists in the code)
whenever fewer than 2 raw ids are supplied or fewer than 2 of them parse
as valid; the ids are not deduplicated, so 2 or more valid ids — even
copies of one id — proceed to ranking. -/
theorem group_size_guard (catalog : List Movie) (ratings : List Rating)
    (rawIds : List (Option Nat)) (limit : Nat) (minSat : ℚ)
    (h : rawIds.length < 2 ∨ (rawIds.filterMap id).length < 2) :
    getGroupRecommendations catalog ratings rawIds limit minSat = [] := by
  rw [getGroupRecommendations]
  by_cases h2 : rawIds.length < 2
  · rw [if_pos h2]
  · rw [if_neg h2]
    dsimp only
    rcases h with h | h
    · exact absurd h h2
    · rw [if_pos h]

/-- C7 witness: the guard applied to a single-user call. -/
theorem group_size_guard_witness :
    getGroupRecommendations grpCatalog [] [some 10] 10 (6/10) = [] :=
  group_size_guard grpCatalog [] [some 10] 10 (6/10) (Or.inl (by decide))

/-- C2 amended: on their non-fallback paths, the collaborative and mood
scorers never return a movie the requesting user has rated; the content
scorer excludes exactly the movies the user rated at least 4.0 (so a
movie rated below 4.0 may reappear even with exclusion on); the
popularity fallbacks do not filter rated movies. -/
theorem rated_exclusion_amended :
    (∀ (idx : ContentIndex) (catalog : List Movie) (ratings : List Rating)
        (userId limit : Nat), ¬ (highRatings ratings userId).isEmpty = true →
      ∀ mv ∈ contentGetRecommendations idx catalog ratings userId limit true,
        ¬ ∃ r ∈ ratings, r.userId = userId ∧ (4 : ℚ) ≤ r.rating ∧
          r.movieId = mv.id) ∧
    (∀ (ratings : List Rating) (catalog : List Movie) (userId : Nat)
        (simUsers : List (Nat × ℚ)) (limit : Nat),
      (∀ r ∈ ratings, 0 < r.rating) → collabBuilt ratings = true →
      userId ∈ collabActiveUsers ratings →
      ∀ mv ∈ collabGetRecommendations ratings catalog userId simUsers limit,
        ¬ ∃ r ∈ ratings, r.userId = userId ∧ r.movieId = mv.id) ∧
    (∀ (catalog : List Movie) (ratings : List Rating) (reviews : List Review)
        (logf : ℚ → ℚ) (userId : Nat) (mood : String) (limit : Nat),
      ∀ mv ∈ getMoodRecommendations catalog ratings reviews logf userId mood limit,
        ¬ ∃ r ∈ ratings, r.userId = userId ∧ r.movieId = mv.id) :=
  ⟨content_exclusion, collab_exclusion, mood_exclusion⟩

/-- C2 counterexample: user 7 rated movie 2 with 3.0 (and movie 1 with
5.0); with exclusion on, the content scorer still returns the rated
movie 2, because its exclusion set holds only the ≥ 4.0-rated movies. -/
theorem rated_exclusion_counterexample :
    (∃ r ∈ exRatings, r.userId = 7 ∧ r.movieId = exMovie2.id) ∧
      contentGetRecommendations exIdx exCatalog exRatings 7 10 true = [exMovie2] := by
  constructor
  · exact ⟨⟨7, 2, 3⟩, by decide, rfl, rfl⟩
  · decide

/-- C2 witness: the amended exclusion statement applied on concrete
stores for each of the three scorers. -/
theorem rated_exclusion_amended_witness :
    (¬ ∃ r ∈ exRatings, r.userId = 7 ∧ (4 : ℚ) ≤ r.rating ∧
        r.movieId = exMovie2.id) ∧
      (¬ ∃ r ∈ wcRatings, r.userId = 1 ∧ r.movieId = wcMovie.id) ∧
      (¬ ∃ r ∈ wmRatings, r.userId = 7 ∧ r.movieId = wmMovie.id) :=
  ⟨rated_exclusion_amended.1 exIdx exCatalog exRatings 7 10 (by decide) exMovie2
      (by decide),
    rated_exclusion_amended.2.1 wcRatings wcCatalog 1 [(2, 1/2)] 10 (by decide)
      (by decide) (by decide) wcMovie (by decide),
    rated_exclusion_amended.2.2 wmCatalog wmRatings [] (fun _ => 0) 7 "happy" 10
      wmMovie (by decide)⟩

theorem contribs_as_filter (idx : ContentIndex) (catalog : List Movie)
    (userHigh : List Rating) (ratedIds : List Nat) (mid : Nat) :
    contribsOf idx catalog userHigh ratedIds mid =
      ((contentPairStream idx catalog userHigh ratedIds).filter
        (fun p => p.1 = mid)).map (fun p => p.2.2) := by
  rw [contentPairStream, contribsOf, List.filter_flatMap, List.map_flatMap]
  refine congrArg _ (funext fun r => ?_)
  rw [List.filter_map, List.map_map]
  rfl

theorem buildCandidates_count_pos {idx : ContentIndex} {catalog : List Movie}
    {userHigh : List Rating} {ratedIds : List Nat} {e : Nat × (Movie × ℚ × Nat)}
    (he : e ∈ buildCandidates idx catalog userHigh ratedIds) :
    0 < (contribsOf idx catalog userHigh ratedIds e.1).length := by
  obtain ⟨hne, _⟩ := mem_foldBump_eq he
  rw [contribs_as_filter, List.length_map]
  rw [List.length_pos]
  intro hnil
  rw [hnil] at hne
  simp at hne

/-- C3: in the content scorer, a candidate's accumulated score is the sum,
over every highly rated source movie whose fetched neighborhood lists the
candidate, of similarity × (user_rating / 5.0); its count is the number
of those contributing sources (and is positive); the returned ranking
sorts the candidates by descending score/count — the average weighted
score — and a concrete instance whose raw-sum order differs (movie 3 has
the larger raw sum, movie 2 the larger average, and movie 2 is ranked
first) shows the ranking follows the average, not the raw sum. -/
theorem content_average_ranking :
    (∀ (idx : ContentIndex) (catalog : List Movie) (userHigh : List Rating)
        (ratedIds : List Nat),
      ∀ e ∈ buildCandidates idx catalog userHigh ratedIds,
        e.2.2.1 = (contribsOf idx catalog userHigh ratedIds e.1).sum ∧
          e.2.2.2 = (contribsOf idx catalog userHigh ratedIds e.1).length ∧
          0 < (contribsOf idx catalog userHigh ratedIds e.1).length) ∧
    (∀ (idx : ContentIndex) (catalog : List Movie) (ratings : List Rating)
        (userId limit : Nat) (ew : Bool),
      ¬ (highRatings ratings userId).isEmpty = true →
      (List.Sorted (descBy avgScore)
        (((buildCandidates idx catalog (highRatings ratings userId) (if ew = true then (highRatings ratings userId).map (fun r => r.movieId) else [])).map (fun e => e.2)).insertionSort (descBy avgScore)) ∧
      contentGetRecommendations idx catalog ratings userId limit ew =
        ((((buildCandidates idx catalog (highRatings ratings userId) (if ew = true then (highRatings ratings userId).map (fun r => r.movieId) else [])).map (fun e => e.2)).insertionSort (descBy avgScore)).take limit).map (fun v => v.1))) ∧
    ((contribsOf disIdx disCatalog (highRatings disRatings 7) [] 2).sum <
        (contribsOf disIdx disCatalog (highRatings disRatings 7) [] 3).sum ∧
      (contentGetRecommendations disIdx disCatalog disRatings 7 10 false).map
          (fun m => m.id) = [2, 3, 1]) := by
  refine ⟨?_, ?_, by decide, by decide⟩
  · intro idx catalog userHigh ratedIds e he
    exact ⟨(buildCandidates_scoreCount he).1, (buildCandidates_scoreCount he).2,
      buildCandidates_count_pos he⟩
  · intro idx catalog ratings userId limit ew hne
    constructor
    · exact List.sorted_insertionSort _ _
    · rw [contentGetRecommendations, if_neg hne]

/-- C3 witness: the characterization applied at the concrete candidate
entry for movie 2 of the discriminating instance, and the ranking
equation at that instance. -/
theorem content_average_ranking_witness :
    ((2 : Nat), (disMovie2, (1/2 : ℚ), (1 : Nat))).2.2.1 =
        (contribsOf disIdx disCatalog (highRatings disRatings 7) []
          ((2 : Nat), (disMovie2, (1/2 : ℚ), (1 : Nat))).1).sum ∧
      contentGetRecommendations disIdx disCatalog disRatings 7 10 false =
        ((((buildCandidates disIdx disCatalog (highRatings disRatings 7) (if false = true then (highRatings disRatings 7).map (fun r => r.movieId) else [])).map (fun e => e.2)).insertionSort (descBy avgScore)).take 10).map (fun v => v.1) :=
  ⟨(content_average_ranking.1 disIdx disCatalog (highRatings disRatings 7) []
      ((2 : Nat), (disMovie2, (1/2 : ℚ), (1 : Nat))) (by decide)).1,
    (content_average_ranking.2.1 disIdx disCatalog disRatings 7 10 false
      (by decide)).2⟩

theorem clamp01_nonneg (q : ℚ) : 0 ≤ clamp01 q := le_max_left 0 _

theorem clamp01_le_one (q : ℚ) : clamp01 q ≤ 1 :=
  max_le (by norm_num) (min_le_left 1 q)

/-- C4: the group satisfaction of a movie is
0.6 × mean of the members' individual predicted satisfactions plus
0.4 × their minimum, clamped to [0, 1] (the minimum term is proved to be
a true minimum); every returned movie is a consensus candidate whose
satisfaction reaches the threshold, the list is ranked by descending
satisfaction, and - as long as no more than `limit` candidates qualify -
every qualifying candidate is returned. -/
theorem group_satisfaction_threshold :
    (∀ (catalog : List Movie) (m : Movie) (u : Nat) (rest : List Nat)
        (rf : Nat → List (Nat × ℚ)),
      calculateGroupSatisfaction catalog m (u :: rest) rf =
          clamp01 ((6/10) * ((((u :: rest).map (fun v => predictUserSatisfaction catalog m (rf v))).sum) / ((((u :: rest).map (fun v => predictUserSatisfaction catalog m (rf v))).length : ℚ))) +
            (4/10) * (listMin (predictUserSatisfaction catalog m (rf u)) (rest.map (fun v => predictUserSatisfaction catalog m (rf v))))) ∧
        (listMin (predictUserSatisfaction catalog m (rf u)) (rest.map (fun v => predictUserSatisfaction catalog m (rf v)))) ∈ (u :: rest).map (fun v => predictUserSatisfaction catalog m (rf v)) ∧
        (∀ x ∈ (u :: rest).map (fun v => predictUserSatisfaction catalog m (rf v)), (listMin (predictUserSatisfaction catalog m (rf u)) (rest.map (fun v => predictUserSatisfaction catalog m (rf v)))) ≤ x) ∧
        0 ≤ calculateGroupSatisfaction catalog m (u :: rest) rf ∧
        calculateGroupSatisfaction catalog m (u :: rest) rf ≤ 1) ∧
    (∀ (catalog : List Movie) (ratings : List Rating) (rawIds : List (Option Nat))
        (limit : Nat) (minSat : ℚ),
      ∀ mv ∈ getGroupRecommendations catalog ratings rawIds limit minSat,
        mv ∈ findConsensusCandidates catalog (ratingsForUser ratings)
            (rawIds.filterMap id)
            ((rawIds.filterMap id).flatMap
              (fun v => (ratingsForUser ratings v).map (fun p => p.1))) ∧
          minSat ≤ calculateGroupSatisfaction catalog mv (rawIds.filterMap id)
            (ratingsForUser ratings)) ∧
    (∀ (catalog : List Movie) (ratings : List Rating) (rawIds : List (Option Nat))
        (limit : Nat) (minSat : ℚ),
      ¬ rawIds.length < 2 → ¬ (rawIds.filterMap id).length < 2 →
      (List.Sorted (descBy (fun p : Movie × ℚ => p.2))
        ((((findConsensusCandidates catalog (ratingsForUser ratings) (rawIds.filterMap id) ((rawIds.filterMap id).flatMap (fun v => (ratingsForUser ratings v).map (fun p => p.1)))).map (fun mm => (mm, calculateGroupSatisfaction catalog mm (rawIds.filterMap id) (ratingsForUser ratings)))).filter (fun p => minSat ≤ p.2)).insertionSort (descBy (fun p : Movie × ℚ => p.2))) ∧
      getGroupRecommendations catalog ratings rawIds limit minSat =
        (((((findConsensusCandidates catalog (ratingsForUser ratings) (rawIds.filterMap id) ((rawIds.filterMap id).flatMap (fun v => (ratingsForUser ratings v).map (fun p => p.1)))).map (fun mm => (mm, calculateGroupSatisfaction catalog mm (rawIds.filterMap id) (ratingsForUser ratings)))).filter (fun p => minSat ≤ p.2)).insertionSort (descBy (fun p : Movie × ℚ => p.2))).take
          limit).map (fun p => p.1))) ∧
    (∀ (catalog : List Movie) (ratings : List Rating) (rawIds : List (Option Nat))
        (limit : Nat) (minSat : ℚ),
      ¬ rawIds.length < 2 → ¬ (rawIds.filterMap id).length < 2 →
      (((findConsensusCandidates catalog (ratingsForUser ratings) (rawIds.filterMap id) ((rawIds.filterMap id).flatMap (fun v => (ratingsForUser ratings v).map (fun p => p.1)))).map (fun mm => (mm, calculateGroupSatisfaction catalog mm (rawIds.filterMap id) (ratingsForUser ratings)))).filter (fun p => minSat ≤ p.2)).length ≤ limit →
      ∀ mv ∈ findConsensusCandidates catalog (ratingsForUser ratings)
          (rawIds.filterMap id)
          ((rawIds.filterMap id).flatMap
            (fun v => (ratingsForUser ratings v).map (fun p => p.1))),
        minSat ≤ calculateGroupSatisfaction catalog mv (rawIds.filterMap id)
            (ratingsForUser ratings) →
        mv ∈ getGroupRecommendations catalog ratings rawIds limit minSat) := by
  refine ⟨?_, ?_, ?_, ?_⟩
  · intro catalog m u rest rf
    have heq : calculateGroupSatisfaction catalog m (u :: rest) rf =
        clamp01 ((6/10) * ((((u :: rest).map (fun v => predictUserSatisfaction catalog m (rf v))).sum) / ((((u :: rest).map (fun v => predictUserSatisfaction catalog m (rf v))).length : ℚ))) +
          (4/10) * (listMin (predictUserSatisfaction catalog m (rf u)) (rest.map (fun v => predictUserSatisfaction catalog m (rf v))))) := rfl
    refine ⟨heq, listMin_mem _ _, listMin_le _ _, ?_, ?_⟩
    · rw [heq]
      exact clamp01_nonneg _
    · rw [heq]
      exact clamp01_le_one _
  · intro catalog ratings rawIds limit minSat mv hmv
    rw [getGroupRecommendations] at hmv
    split at hmv
    · cases hmv
    · dsimp only at hmv
      split at hmv
      · cases hmv
      · rw [List.mem_map] at hmv
        obtain ⟨p, hp, rfl⟩ := hmv
        have hp2 := List.take_subset _ _ hp
        have hp3 := (List.perm_insertionSort
          (descBy (fun p : Movie × ℚ => p.2)) _).mem_iff.mp hp2
        obtain ⟨hps, hpk⟩ := List.mem_filter.mp hp3
        rw [List.mem_map] at hps
        obtain ⟨m0, hm0, rfl⟩ := hps
        exact ⟨hm0, by simpa using hpk⟩
  · intro catalog ratings rawIds limit minSat h2 h3
    constructor
    · exact List.sorted_insertionSort _ _
    · rw [getGroupRecommendations, if_neg h2]
      dsimp only
      rw [if_neg h3]
  · intro catalog ratings rawIds limit minSat h2 h3 hlen mv hmem hsat
    rw [getGroupRecommendations, if_neg h2]
    dsimp only
    rw [if_neg h3]
    have hp : (mv, calculateGroupSatisfaction catalog mv (rawIds.filterMap id)
        (ratingsForUser ratings)) ∈ ((findConsensusCandidates catalog (ratingsForUser ratings) (rawIds.filterMap id) ((rawIds.filterMap id).flatMap (fun v => (ratingsForUser ratings v).map (fun p => p.1)))).map (fun mm => (mm, calculateGroupSatisfaction catalog mm (rawIds.filterMap id) (ratingsForUser ratings)))).filter (fun p => minSat ≤ p.2) :=
      List.mem_filter.mpr ⟨List.mem_map_of_mem _ hmem, by simpa using hsat⟩
    have hps := (List.perm_insertionSort
      (descBy (fun p : Movie × ℚ => p.2)) (((findConsensusCandidates catalog (ratingsForUser ratings) (rawIds.filterMap id) ((rawIds.filterMap id).flatMap (fun v => (ratingsForUser ratings v).map (fun p => p.1)))).map (fun mm => (mm, calculateGroupSatisfaction catalog mm (rawIds.filterMap id) (ratingsForUser ratings)))).filter (fun p => minSat ≤ p.2))).mem_iff.mpr hp
    have hlen2 : ((((findConsensusCandidates catalog (ratingsForUser ratings) (rawIds.filterMap id) ((rawIds.filterMap id).flatMap (fun v => (ratingsForUser ratings v).map (fun p => p.1)))).map (fun mm => (mm, calculateGroupSatisfaction catalog mm (rawIds.filterMap id) (ratingsForUser ratings)))).filter (fun p => minSat ≤ p.2)).insertionSort
        (descBy (fun p : Movie × ℚ => p.2))).length ≤ limit := by
      rw [(List.perm_insertionSort (descBy (fun p : Movie × ℚ => p.2))
        (((findConsensusCandidates catalog (ratingsForUser ratings) (rawIds.filterMap id) ((rawIds.filterMap id).flatMap (fun v => (ratingsForUser ratings v).map (fun p => p.1)))).map (fun mm => (mm, calculateGroupSatisfaction catalog mm (rawIds.filterMap id) (ratingsForUser ratings)))).filter (fun p => minSat ≤ p.2))).length_eq]
      exact hlen
    rw [List.take_of_length_le hlen2]
    exact List.mem_map_of_mem _ hps

/-- C4 counterexample: with limit 1 both candidate movies reach the 0.6
threshold, yet only one is returned - the returned list is the truncation
of the qualifying candidates, not exactly that set. -/
theorem group_threshold_counterexample :
    grpMovie2 ∈ findConsensusCandidates grpCatalog (ratingsForUser []) [10, 11] [] ∧
      (6/10 : ℚ) ≤ calculateGroupSatisfaction grpCatalog grpMovie2 [10, 11]
        (ratingsForUser []) ∧
      grpMovie2 ∉ getGroupRecommendations grpCatalog [] [some 10, some 11] 1 (6/10) := by
  refine ⟨by decide, by decide, by decide⟩

/-- C4 witness: the amended statement applied on the concrete two-movie
store - formula and bounds for one movie, soundness for the returned
movie, and completeness at limit 10 where both qualifying candidates are
returned. -/
theorem group_satisfaction_threshold_witness :
    (0 ≤ calculateGroupSatisfaction grpCatalog grpMovie1 (10 :: [11])
        (ratingsForUser []) ∧
      calculateGroupSatisfaction grpCatalog grpMovie1 (10 :: [11])
        (ratingsForUser []) ≤ 1) ∧
      (6/10 : ℚ) ≤ calculateGroupSatisfaction grpCatalog grpMovie1
        (([some 10, some 11] : List (Option Nat)).filterMap id)
        (ratingsForUser []) ∧
      grpMovie2 ∈ getGroupRecommendations grpCatalog [] [some 10, some 11] 10 (6/10) :=
  ⟨⟨((group_satisfaction_threshold.1 grpCatalog grpMovie1 10 [11]
        (ratingsForUser [])).2.2.2).1,
      ((group_satisfaction_threshold.1 grpCatalog grpMovie1 10 [11]
        (ratingsForUser [])).2.2.2).2⟩,
    (group_satisfaction_threshold.2.1 grpCatalog [] [some 10, some 11] 10 (6/10)
      grpMovie1 (by decide)).2,
    group_satisfaction_threshold.2.2.2 grpCatalog [] [some 10, some 11] 10 (6/10)
      (by decide) (by decide) (by decide) grpMovie2 (by decide) (by decide)⟩

theorem lookupKey_mem {κ β : Type} [DecidableEq κ] {l : List (κ × β)} {k : κ}
    {v : β} (h : lookupKey l k = some v) : ∃ e ∈ l, e.1 = k ∧ e.2 = v := by
  rw [lookupKey] at h
  cases hf : l.find? (fun e => e.1 = k) with
  | none => rw [hf] at h; cases h
  | some e =>
    rw [hf] at h
    refine ⟨e, List.mem_of_find?_eq_some hf, by simpa using List.find?_some hf, ?_⟩
    simpa using h

theorem genreStream_filter (catalog : List Movie) (ur : List (Nat × ℚ)) (g : String) :
    (((catalog.filter (fun m => ur.any (fun p => p.1 = m.id))).flatMap
        (fun m => m.genres.map (fun x => (x, ratingOf ur m.id)))).filter
      (fun p => p.1 = g)).map (fun p => p.2) = genreRatingsOf catalog ur g := by
  rw [genreRatingsOf, List.filter_flatMap, List.map_flatMap]
  refine congrArg _ (funext fun m => ?_)
  rw [List.filter_map, List.map_map]
  rfl

theorem genreTotals_lookup (catalog : List Movie) (ur : List (Nat × ℚ)) (g : String) :
    lookupKey (genreTotals catalog ur) g =
      if (genreRatingsOf catalog ur g).isEmpty then none
      else some ((genreRatingsOf catalog ur g).sum, (genreRatingsOf catalog ur g).length) := by
  rw [genreTotals, lookupKey_foldBump]
  have hlen : (((catalog.filter (fun m => ur.any (fun p => p.1 = m.id))).flatMap
      (fun m => m.genres.map (fun x => (x, ratingOf ur m.id)))).filter
      (fun p => p.1 = g)).length = (genreRatingsOf catalog ur g).length := by
    rw [← genreStream_filter catalog ur g, List.length_map]
  by_cases hS : (((catalog.filter (fun m => ur.any (fun p => p.1 = m.id))).flatMap
      (fun m => m.genres.map (fun x => (x, ratingOf ur m.id)))).filter
      (fun p => p.1 = g)).isEmpty
  · rw [if_pos hS, if_pos]
    rw [List.isEmpty_iff] at hS ⊢
    rw [← genreStream_filter catalog ur g, hS]
    rfl
  · rw [if_neg hS, if_neg]
    · rw [foldl_sumCount, ← genreStream_filter catalog ur g, List.length_map]
      simp
    · rw [List.isEmpty_iff] at hS ⊢
      intro hnil
      rw [← genreStream_filter catalog ur g] at hnil
      apply hS
      have h0 := congrArg List.length hnil
      rw [List.length_map] at h0
      exact List.length_eq_zero.mp (by simpa using h0)

theorem userGenrePrefs_keysNodup (catalog : List Movie) (ur : List (Nat × ℚ)) :
    (userGenrePrefs catalog ur).Pairwise (fun a b => ¬ a.1 = b.1) := by
  rw [userGenrePrefs]
  by_cases hur : ur.isEmpty
  · rw [if_pos hur]
    simp
  · rw [if_neg hur]
    rw [List.pairwise_filterMap]
    refine List.Pairwise.imp ?_
      (foldBump_keysNodup (fun (q : ℚ) (b : ℚ × Nat) => (b.1 + q, b.2 + 1)) (0, 0) _)
    intro a a' hne b hb b' hb'
    have hb1 : b.1 = a.1 := by
      by_cases h2 : 2 ≤ a.2.2
      · rw [if_pos h2] at hb
        cases hb
        rfl
      · rw [if_neg h2] at hb
        cases hb
    have hb1' : b'.1 = a'.1 := by
      by_cases h2 : 2 ≤ a'.2.2
      · rw [if_pos h2] at hb'
        cases hb'
        rfl
      · rw [if_neg h2] at hb'
        cases hb'
    rw [hb1, hb1']
    exact hne

theorem mem_userGenrePrefs (catalog : List Movie) (ur : List (Nat × ℚ))
    (g : String) (avg : ℚ) :
    (g, avg) ∈ userGenrePrefs catalog ur ↔
      ¬ ur = [] ∧ 2 ≤ (genreRatingsOf catalog ur g).length ∧
        avg = (genreRatingsOf catalog ur g).sum /
          ((genreRatingsOf catalog ur g).length : ℚ) := by
  rw [userGenrePrefs]
  by_cases hur : ur.isEmpty
  · rw [if_pos hur]
    rw [List.isEmpty_iff] at hur
    simp [hur]
  · rw [if_neg hur]
    have hurne : ¬ ur = [] := by
      rw [List.isEmpty_iff] at hur
      exact hur
    rw [List.mem_filterMap]
    constructor
    · rintro ⟨e, he, hfe⟩
      by_cases h2 : 2 ≤ e.2.2
      · rw [if_pos h2] at hfe
        have hpair := Option.some.inj hfe
        have heg : e.1 = g := congrArg Prod.fst hpair
        have hav : e.2.1 / (e.2.2 : ℚ) = avg := congrArg Prod.snd hpair
        have hnd : (genreTotals catalog ur).Pairwise (fun a b => ¬ a.1 = b.1) :=
          foldBump_keysNodup _ _ _
        have hlk := lookupKey_of_mem hnd he
        rw [heg, genreTotals_lookup] at hlk
        by_cases hE : (genreRatingsOf catalog ur g).isEmpty
        · rw [if_pos hE] at hlk
          cases hlk
        · rw [if_neg hE] at hlk
          have he2 := Option.some.inj hlk
          have hsum : e.2.1 = (genreRatingsOf catalog ur g).sum :=
            (congrArg Prod.fst he2).symm
          have hcnt : e.2.2 = (genreRatingsOf catalog ur g).length :=
            (congrArg Prod.snd he2).symm
          refine ⟨hurne, ?_, ?_⟩
          · rw [← hcnt]
            exact h2
          · rw [← hav, hsum, hcnt]
      · rw [if_neg h2] at hfe
        cases hfe
    · rintro ⟨_, hlen, havg⟩
      have hE : ¬ (genreRatingsOf catalog ur g).isEmpty = true := by
        rw [List.isEmpty_iff]
        intro hnil
        rw [hnil] at hlen
        simp at hlen
      have hlk := genreTotals_lookup catalog ur g
      rw [if_neg hE] at hlk
      obtain ⟨e, he, heg, hev⟩ := lookupKey_mem hlk
      refine ⟨e, he, ?_⟩
      have h2 : 2 ≤ e.2.2 := by
        rw [hev]
        exact hlen
      rw [if_pos h2, heg, hev, havg]

theorem length_filter_key {κ β : Type} [DecidableEq κ] (g : κ) (q : κ × β → Bool)
    (l : List (κ × β)) (hnd : l.Pairwise (fun a b => ¬ a.1 = b.1)) :
    (l.filter (fun p => q p && decide (p.1 = g))).length =
      if ∃ p ∈ l, p.1 = g ∧ q p then 1 else 0 := by
  induction l with
  | nil => simp
  | cons a t ih =>
    obtain ⟨ha, ht⟩ := List.pairwise_cons.mp hnd
    rw [List.filter_cons]
    by_cases hqa : (q a && decide (a.1 = g)) = true
    · rw [if_pos hqa]
      have hag : a.1 = g := by
        simpa using ((Bool.and_eq_true _ _).mp hqa).2
      have htnil : t.filter (fun p => q p && decide (p.1 = g)) = [] := by
        rw [List.filter_eq_nil_iff]
        intro p hp hb
        have hne := ha p hp
        have hpg : p.1 = g := by
          simpa using ((Bool.and_eq_true _ _).mp hb).2
        rw [hag] at hne
        exact hne hpg.symm
      rw [htnil, if_pos ⟨a, List.mem_cons_self a t, hag,
        ((Bool.and_eq_true _ _).mp hqa).1⟩]
      rfl
    · rw [if_neg hqa, ih ht]
      have hnot : ¬ (a.1 = g ∧ q a = true) := by
        intro hc
        exact hqa (by simp [hc.1, hc.2])
      by_cases he : ∃ p ∈ t, p.1 = g ∧ q p = true
      · rw [if_pos he, if_pos]
        obtain ⟨p, hp, hc⟩ := he
        exact ⟨p, List.mem_cons_of_mem a hp, hc⟩
      · rw [if_neg he, if_neg]
        rintro ⟨p, hp, hc⟩
        rcases List.mem_cons.mp hp with rfl | hpt
        · exact hnot hc
        · exact he ⟨p, hpt, hc⟩

theorem likesGenre_iff_exists (catalog : List Movie) (ur : List (Nat × ℚ)) (g : String) :
    (∃ p ∈ userGenrePrefs catalog ur, p.1 = g ∧ (7/2 : ℚ) ≤ p.2) ↔
      memberLikesGenre catalog ur g := by
  constructor
  · rintro ⟨⟨pg, pv⟩, hp, hpg, hple⟩
    have hg : pg = g := hpg
    subst hg
    obtain ⟨h1, h2, h3⟩ := (mem_userGenrePrefs catalog ur pg pv).mp hp
    refine ⟨h1, h2, ?_⟩
    rw [h3] at hple
    exact hple
  · rintro ⟨h1, h2, h3⟩
    exact ⟨(g, (genreRatingsOf catalog ur g).sum /
        ((genreRatingsOf catalog ur g).length : ℚ)),
      (mem_userGenrePrefs catalog ur g _).mpr ⟨h1, h2, rfl⟩, rfl, h3⟩

theorem userContribCount (catalog : List Movie) (ur : List (Nat × ℚ)) (g : String) :
    ((((userGenrePrefs catalog ur).filter (fun p => (7/2 : ℚ) ≤ p.2)).map
        (fun p => (p.1, ()))).filter (fun p => p.1 = g)).length =
      if memberLikesGenre catalog ur g then 1 else 0 := by
  rw [List.filter_map, List.length_map, List.filter_filter]
  rw [show (fun (a : String × ℚ) =>
      ((fun (p : String × Unit) => decide (p.1 = g)) ∘ fun p => (p.1, ())) a &&
        decide ((7/2 : ℚ) ≤ a.2)) = (fun a =>
      decide ((7/2 : ℚ) ≤ a.2) && decide (a.1 = g)) from
    funext fun a => Bool.and_comm _ _]
  rw [length_filter_key g (fun p => decide ((7/2 : ℚ) ≤ p.2))
    (userGenrePrefs catalog ur) (userGenrePrefs_keysNodup catalog ur)]
  by_cases h : memberLikesGenre catalog ur g
  · rw [if_pos h, if_pos]
    obtain ⟨p, hp, hpg, hple⟩ := (likesGenre_iff_exists catalog ur g).mpr h
    exact ⟨p, hp, hpg, by simpa using hple⟩
  · rw [if_neg h, if_neg]
    rintro ⟨p, hp, hpg, hple⟩
    exact h ((likesGenre_iff_exists catalog ur g).mp ⟨p, hp, hpg, by simpa using hple⟩)

theorem sum_indicator_countP {α : Type} (P : α → Prop) [DecidablePred P]
    (l : List α) :
    (l.map (fun a => if P a then 1 else 0)).sum =
      l.countP (fun a => decide (P a)) := by
  induction l with
  | nil => rfl
  | cons a t ih =>
    rw [List.map_cons, List.sum_cons, List.countP_cons, ih]
    by_cases h : P a
    · simp [h]
      omega
    · simp [h]

theorem genreSupport_lookup (catalog : List Movie)
    (ratingsFor : Nat → List (Nat × ℚ)) (userIds : List Nat) (g : String) :
    lookupKey (genreSupport catalog ratingsFor userIds) g =
      if (firstUniques userIds).countP
          (fun u => decide (memberLikesGenre catalog (ratingsFor u) g)) = 0
      then none
      else some ((firstUniques userIds).countP
        (fun u => decide (memberLikesGenre catalog (ratingsFor u) g))) := by
  rw [genreSupport, lookupKey_foldBump]
  have hlen : (((firstUniques userIds).flatMap (fun u =>
      ((userGenrePrefs catalog (ratingsFor u)).filter
        (fun p => (7/2 : ℚ) ≤ p.2)).map (fun p => (p.1, ())))).filter
      (fun p => p.1 = g)).length =
      (firstUniques userIds).countP
        (fun u => decide (memberLikesGenre catalog (ratingsFor u) g)) := by
    rw [List.filter_flatMap, List.length_flatMap, ← sum_indicator_countP]
    refine congrArg List.sum ?_
    refine congrArg (fun f => List.map f (firstUniques userIds)) (funext fun u => ?_)
    exact userContribCount catalog (ratingsFor u) g
  by_cases h0 : (firstUniques userIds).countP
      (fun u => decide (memberLikesGenre catalog (ratingsFor u) g)) = 0
  · rw [if_pos h0, if_pos]
    rw [List.isEmpty_iff, ← List.length_eq_zero, hlen]
    exact h0
  · rw [if_neg h0, if_neg]
    · rw [foldl_countUnit, hlen]
      simp
    · rw [List.isEmpty_iff, ← List.length_eq_zero, hlen]
      exact h0

theorem mem_commonGenres (catalog : List Movie)
    (ratingsFor : Nat → List (Nat × ℚ)) (userIds : List Nat) (g : String) :
    g ∈ commonGenres catalog ratingsFor userIds ↔
      userIds.length / 2 + 1 ≤ (firstUniques userIds).countP
        (fun u => decide (memberLikesGenre catalog (ratingsFor u) g)) := by
  rw [commonGenres, List.mem_map]
  constructor
  · rintro ⟨p, hp, hpg⟩
    obtain ⟨hpmem, hthr⟩ := List.mem_filter.mp hp
    have hthr' : userIds.length / 2 + 1 ≤ p.2 := by simpa using hthr
    have hnd : (genreSupport catalog ratingsFor userIds).Pairwise
        (fun a b => ¬ a.1 = b.1) := by
      rw [genreSupport]
      exact foldBump_keysNodup _ _ _
    have hlk := lookupKey_of_mem hnd hpmem
    rw [hpg, genreSupport_lookup] at hlk
    by_cases h0 : (firstUniques userIds).countP
        (fun u => decide (memberLikesGenre catalog (ratingsFor u) g)) = 0
    · rw [if_pos h0] at hlk
      cases hlk
    · rw [if_neg h0] at hlk
      have hv := Option.some.inj hlk
      rw [hv]
      exact hthr'
  · intro hle
    have h0 : ¬ (firstUniques userIds).countP
        (fun u => decide (memberLikesGenre catalog (ratingsFor u) g)) = 0 := by
      omega
    have hlk := genreSupport_lookup catalog ratingsFor userIds g
    rw [if_neg h0] at hlk
    obtain ⟨e, he, heg, hev⟩ := lookupKey_mem hlk
    refine ⟨e, List.mem_filter.mpr ⟨he, ?_⟩, heg⟩
    rw [hev]
    simpa using hle

/-- C5: in group candidate selection a genre counts as "common" exactly when
the number of distinct group members whose average rating in that genre
(computed only over genres with at least 2 of that member's ratings) is at
least 3.5 reaches the support threshold n / 2 + 1 (floor division), where n
is the group size; in the boundary scenario of a 3-member group where
exactly members 21 and 22 average at least 3.5 in Horror, the support 2
exactly meets the threshold 3 / 2 + 1 = 2 and Horror qualifies as common. -/
theorem common_genre_iff :
    (∀ (catalog : List Movie) (ratingsFor : Nat → List (Nat × ℚ))
        (userIds : List Nat) (g : String),
      g ∈ commonGenres catalog ratingsFor userIds ↔
        userIds.length / 2 + 1 ≤ (firstUniques userIds).countP
          (fun u => decide (memberLikesGenre catalog (ratingsFor u) g))) ∧
    (firstUniques [21, 22, 23]).countP (fun u =>
        decide (memberLikesGenre horrorCatalog (ratingsForUser horrorRatings u)
          "Horror")) = 2 ∧
    ([21, 22, 23] : List Nat).length / 2 + 1 = 2 ∧
    "Horror" ∈ commonGenres horrorCatalog (ratingsForUser horrorRatings)
      [21, 22, 23] := by
  refine ⟨fun catalog ratingsFor userIds g =>
    mem_commonGenres catalog ratingsFor userIds g, ?_, ?_, ?_⟩
  · decide
  · decide
  · decide
